import Mathlib

/-!
# Verification of the shvtree type system and loader

A shallow embedding of the `shvtree` Python package (files `types.py`,
`types_builtins.py`, `namedset.py`, `node.py`, `method.py`, `shvtree.py`,
`load.py`) together with proofs and refutations of the specification claims.

Conventions of the embedding:

* Python exceptions are modelled by the error monad `Except PyErr`.
* Python `int` is modelled by `Int` (arbitrary precision in both worlds);
  values handled by bitfields are modelled by `Nat` (bitfields transmit
  unsigned integers).
* Python `float` document scalars are modelled by `Rat` (exact values of
  finite floats); NaN floats are outside the model.
* `decimal.Decimal` is modelled by `Dec` below (sign folded into the
  mantissa, plus infinities and NaN), with numeric equality.
* Python dictionaries are modelled by association lists in insertion order;
  dictionary update (`d[k] = v`) replaces the first binding of `k` or appends.
* Reference semantics: the embedding uses value semantics.  Mutation of an
  object already inserted into a collection is modelled by replacing the
  stored entry.  Self-referential type declarations (a declaration that
  mentions its own name) would create reference cycles in Python, on which
  structural equality does not terminate; such documents are outside the
  faithful range of this embedding.
-/

/-- Python exceptions relevant to the embedded code. -/
inductive PyErr where
  | valueError (msg : String)
  | keyError (msg : String)
  | zeroDivisionError
  | assertionError
  | typeError (msg : String)
  | invalidOperation
  | runtimeError (msg : String)
  | fuelExhausted
  | unmodelled (msg : String)
deriving Repr, DecidableEq

/-- Decidable equality of `Except` results. -/
instance {ε α : Type} [DecidableEq ε] [DecidableEq α] : DecidableEq (Except ε α) := fun a b =>
  match a, b with
  | .ok x, .ok y =>
      if h : x = y then .isTrue (by rw [h])
      else .isFalse (by intro hh; cases hh; exact h rfl)
  | .ok _, .error _ => .isFalse (by intro h; cases h)
  | .error _, .ok _ => .isFalse (by intro h; cases h)
  | .error x, .error y =>
      if h : x = y then .isTrue (by rw [h])
      else .isFalse (by intro hh; cases hh; exact h rfl)

/-- Halving recursion for `bitLength`, structurally recursive on a fuel
argument so that it evaluates inside the kernel. -/
def bitLengthGo : Nat → Nat → Nat
  | _, 0 => 0
  | 0, _ + 1 => 0
  | f + 1, m + 1 => bitLengthGo f ((m + 1) / 2) + 1

/-- Python `int.bit_length` for a natural number: the number of binary
digits (`n` itself is always enough fuel for the halving recursion). -/
def bitLength (n : Nat) : Nat :=
  bitLengthGo n n

/-- Values of `decimal.Decimal`: finite values as mantissa times a power of ten,
plus signed infinities and NaN. -/
inductive Dec where
  | num (m : Int) (e : Int)
  | inf (neg : Bool)
  | nan
deriving Repr, DecidableEq

/-- Scale a finite decimal so that two of them can be compared as integers:
the value of `(m, e)` is `m * 10 ^ (e - emin)` units of `10 ^ emin`. -/
def decScaled (m e emin : Int) : Int :=
  m * (10 : Int) ^ (e - emin).toNat

/-- Numeric equality of decimals (`Decimal.__eq__`): NaN is equal to nothing,
infinities compare by sign, finite values compare numerically. -/
def decValEq : Dec → Dec → Bool
  | .num m1 e1, .num m2 e2 =>
      decScaled m1 e1 (min e1 e2) == decScaled m2 e2 (min e1 e2)
  | .inf s1, .inf s2 => s1 == s2
  | _, _ => false

/-- Numeric order `a ≤ b` on decimals; comparisons involving NaN are false
(Python ordered comparisons on NaN raise instead, but no claim exercises
them; the spot is kept total). -/
def decLe : Dec → Dec → Bool
  | .num m1 e1, .num m2 e2 =>
      decScaled m1 e1 (min e1 e2) ≤ decScaled m2 e2 (min e1 e2)
  | .num _ _, .inf s => !s
  | .inf s, .num _ _ => s
  | .inf s1, .inf s2 => s1 || !s2
  | _, _ => false

/-- Generic document values handed to the loader (plain Python data:
the output of a YAML/JSON front end), and also the value universe of SHV
(`shv.SHVType`) used by constants and `validate`.  `float` carries the exact
rational value of the (finite) float; `dateTime` abstracts
`datetime.datetime` timestamps; `bytes` abstracts `bytes` payloads. -/
inductive RawValue where
  | null
  | bool (b : Bool)
  | int (i : Int)
  | float (q : Rat)
  | str (s : String)
  | bytes (b : List Nat)
  | dateTime (ticks : Int)
  | dec (d : Dec)
  | seq (items : List RawValue)
  | map (entries : List (String × RawValue))
  | imapv (entries : List (Int × RawValue))
deriving Repr

mutual

/-- Structural equality of document values.  Python `==` additionally
identifies numerically equal values of different numeric types (`1 == 1.0`);
the claims below only ever compare values originating from the same
document, where the structural comparison agrees with Python. -/
def rawEq : RawValue → RawValue → Bool
  | .null, .null => true
  | .bool a, .bool b => a == b
  | .int a, .int b => a == b
  | .float a, .float b => a == b
  | .str a, .str b => a == b
  | .bytes a, .bytes b => a == b
  | .dateTime a, .dateTime b => a == b
  | .dec a, .dec b => decValEq a b
  | .seq a, .seq b => rawEqList a b
  | .map a, .map b => rawEqSMap a b
  | .imapv a, .imapv b => rawEqIMap a b
  | _, _ => false
termination_by structural a => a

/-- Elementwise equality of value sequences. -/
def rawEqList : List RawValue → List RawValue → Bool
  | [], [] => true
  | a :: as1, b :: bs => rawEq a b && rawEqList as1 bs
  | _, _ => false

/-- Pairwise equality of string-keyed entries (same insertion order; Python
dictionary equality is order-insensitive, but all comparisons below are
between dictionaries built from the same document, where orders agree). -/
def rawEqSMap : List (String × RawValue) → List (String × RawValue) → Bool
  | [], [] => true
  | (k1, v1) :: as1, (k2, v2) :: bs => k1 == k2 && rawEq v1 v2 && rawEqSMap as1 bs
  | _, _ => false

/-- Pairwise equality of integer-keyed entries. -/
def rawEqIMap : List (Int × RawValue) → List (Int × RawValue) → Bool
  | [], [] => true
  | (k1, v1) :: as1, (k2, v2) :: bs => k1 == k2 && rawEq v1 v2 && rawEqIMap as1 bs
  | _, _ => false

end

/-- Python truthiness of a document value. -/
def RawValue.truthy : RawValue → Bool
  | .null => false
  | .bool b => b
  | .int i => i != 0
  | .float q => q != 0
  | .str s => s != ""
  | .bytes b => !b.isEmpty
  | .dateTime _ => true
  | .dec d => match d with | .num m _ => m != 0 | _ => true
  | .seq l => !l.isEmpty
  | .map l => !l.isEmpty
  | .imapv l => !l.isEmpty

/-- Conversion for `isinstance(value, int)` — Python booleans are integers. -/
def RawValue.asInt : RawValue → Option Int
  | .int i => some i
  | .bool b => some (if b then 1 else 0)
  | _ => none

/-- Does an optional lower bound admit the value (`minimum <= value`)? -/
def minOk (mn : Option Int) (v : Int) : Bool :=
  match mn with
  | none => true
  | some m => decide (m ≤ v)

/-- Does an optional upper bound admit the value (`maximum >= value`)? -/
def maxOk (mx : Option Int) (v : Int) : Bool :=
  match mx with
  | none => true
  | some m => decide (v ≤ m)

/-- Is the optional bound present and negative? -/
def optNeg (o : Option Int) : Bool :=
  match o with
  | none => false
  | some m => decide (m < 0)

/-- The SHV integer type `SHVTypeInt`.  The `unsigned` field stores the
truth value of the Python `_unsigned` attribute (every use of `_unsigned`
in the source is a truthiness test, so collapsing it to `Bool` is
observationally faithful). -/
structure SHVTypeInt where
  name : String
  minimum : Option Int
  maximum : Option Int
  multipleOf : Option Int
  unsigned : Bool
deriving Repr, DecidableEq

/-- Embeds `SHVTypeInt.__new__` together with `SHVTypeInt.__init__`: the singleton
guards for the reserved names `Int`/`UInt` and the sign checks on the
boundaries.  Construction failures are `ValueError`s. -/
def mkSHVTypeInt (name : String) (minimum maximum multipleOf : Option Int)
    (unsigned : Option Bool) : Except PyErr SHVTypeInt :=
  -- __new__: reserved unconstrained forms
  if maximum.isNone && multipleOf.isNone && minimum.isNone && name != "Int" then
    .error (.valueError "Please use shvInt instead")
  else if maximum.isNone && multipleOf.isNone && minimum == some 0 &&
      unsigned != some false && name != "UInt" then
    .error (.valueError "Please use shvUInt instead")
  else
    -- __init__
    let uns := match unsigned with
      | some u => u
      | none => match minimum with
        | some m => decide (0 ≤ m)
        | none => false
    if uns && (optNeg minimum || optNeg maximum) then
      .error (.valueError "Boundaries can't be less than zero for unsigned number")
    else
      .ok ⟨name, minimum, maximum, multipleOf, uns⟩

/-- Embeds `SHVTypeInt.validate` on an integer argument.  The checks run in the
source order; a zero `multiple_of` reaches `value % 0` and raises
`ZeroDivisionError`. -/
def SHVTypeInt.validateInt (t : SHVTypeInt) (value : Int) : Except PyErr Bool :=
  if !minOk t.minimum value then .ok false
  else if !maxOk t.maximum value then .ok false
  else
    match t.multipleOf with
    | none => .ok true
    | some m => if m == 0 then .error .zeroDivisionError else .ok (value % m == 0)

/-- Embeds `SHVTypeInt.validate` on an arbitrary SHV value: non-integers fail the
`isinstance` check. -/
def SHVTypeInt.validateRaw (t : SHVTypeInt) (value : RawValue) : Except PyErr Bool :=
  match value.asInt with
  | none => .ok false
  | some i => t.validateInt i

/-- The setter of the `minimum` property.  Note that the source assigns the
new value to `self._maximum`. -/
def SHVTypeInt.setMinimum (t : SHVTypeInt) (value : Option Int) :
    Except PyErr SHVTypeInt :=
  if t.unsigned && optNeg value then
    .error (.valueError "Can't be less than zero for unsigned number")
  else
    .ok { t with maximum := value }

/-- The setter of the `maximum` property. -/
def SHVTypeInt.setMaximum (t : SHVTypeInt) (value : Option Int) :
    Except PyErr SHVTypeInt :=
  if t.unsigned && optNeg value then
    .error (.valueError "Can't be less than zero for unsigned number")
  else
    .ok { t with maximum := value }

/-- Embeds `SHVTypeInt.chainpack_bytes`. -/
def SHVTypeInt.chainpackBytes (t : SHVTypeInt) : Option Nat :=
  match t.minimum, t.maximum with
  | some mn, some mx =>
      if 0 ≤ mn ∧ mx < 64 then
        some 1
      else
        -- bits = max(|minimum|, |maximum|).bit_length() - 1 [+ 1 unless unsigned]
        let bits : Nat :=
          (bitLength (max mn.natAbs mx.natAbs) - 1) + (if t.unsigned then 0 else 1)
        if bits ≤ 7 then some 2
        else if bits ≤ 14 then some 3
        else if bits ≤ 21 then some 4
        else if bits ≤ 28 then some 5
        else
          let bts := bits / 8 + 1
          if bts ≤ 17 then some (2 + bts) else none
  | _, _ => none

/-- Builtin `shvInt` (`types_builtins.py`). -/
def shvInt : SHVTypeInt := ⟨"Int", none, none, none, false⟩

/-- Builtin `shvUInt`. -/
def shvUInt : SHVTypeInt := ⟨"UInt", some 0, none, none, true⟩

/-- Builtin `shvInt8`. -/
def shvInt8 : SHVTypeInt := ⟨"Int8", some (-(2 ^ 7)), some (2 ^ 7 - 1), none, false⟩

/-- Builtin `shvInt16`. -/
def shvInt16 : SHVTypeInt := ⟨"Int16", some (-(2 ^ 15)), some (2 ^ 15 - 1), none, false⟩

/-- Builtin `shvInt32`. -/
def shvInt32 : SHVTypeInt := ⟨"Int32", some (-(2 ^ 31)), some (2 ^ 31 - 1), none, false⟩

/-- Builtin `shvInt64`. -/
def shvInt64 : SHVTypeInt := ⟨"Int64", some (-(2 ^ 63)), some (2 ^ 63 - 1), none, false⟩

/-- Builtin `shvUInt8`. -/
def shvUInt8 : SHVTypeInt := ⟨"UInt8", some 0, some (2 ^ 8 - 1), none, true⟩

/-- Builtin `shvUInt16`. -/
def shvUInt16 : SHVTypeInt := ⟨"UInt16", some 0, some (2 ^ 16 - 1), none, true⟩

/-- Builtin `shvUInt32`. -/
def shvUInt32 : SHVTypeInt := ⟨"UInt32", some 0, some (2 ^ 32 - 1), none, true⟩

/-- Builtin `shvUInt64`. -/
def shvUInt64 : SHVTypeInt := ⟨"UInt64", some 0, some (2 ^ 64 - 1), none, true⟩

/-- The SHV type algebra (`types.py`).  Each constructor embeds one
`SHVType...` class; `anyMap`/`anyIMap` stand for `SHVTypeAnyMap` and
`SHVTypeAnyIMap`, which are referenced by `types_builtins.py` but whose
definitions are not part of the provided sources — they are modelled from
the spec as the builtin "Map"/"IMap" singleton types.  Tuple, bitfield and
imap carry their optional alias enum as a full type value (always an
`enum`). -/
inductive SHVType where
  | any
  | null
  | bool
  | dateTime
  | int (t : SHVTypeInt)
  | double (name : String)
      (minimum maximum exclusiveMinimum exclusiveMaximum multipleOf : Option Rat)
  | decimal (name : String) (minimum maximum : Option Dec)
  | string (name : String) (minLength maxLength : Option Int) (pattern : Option String)
  | blob (name : String) (minLength maxLength : Option Int)
  | enum (name : String) (values : List (String × Int))
  | bitfield (name : String) (items : List SHVType) (en : Option SHVType) (strict : Bool)
  | listT (name : String) (allowed : SHVType) (minlen : Int) (maxlen : Option Int)
  | tuple (name : String) (items : List SHVType) (en : Option SHVType)
  | mapT (name : String) (fields : List (String × SHVType))
  | imap (name : String) (en : Option SHVType) (fields : List (Int × SHVType))
  | alias (name : String) (tp : SHVType)
  | oneOf (name : String) (types : List SHVType)
  | constant (name : String) (value : RawValue)
  | anyMap
  | anyIMap
deriving Repr

/-- The `name` attribute of a type (`namedset.Named`); the singleton classes
fix their names in their constructors. -/
def typeName : SHVType → String
  | .any => "Any"
  | .null => "Null"
  | .bool => "Bool"
  | .dateTime => "DateTime"
  | .int t => t.name
  | .double n _ _ _ _ _ => n
  | .decimal n _ _ => n
  | .string n _ _ _ => n
  | .blob n _ _ => n
  | .enum n _ => n
  | .bitfield n _ _ _ => n
  | .listT n _ _ _ => n
  | .tuple n _ _ => n
  | .mapT n _ => n
  | .imap n _ _ => n
  | .alias n _ => n
  | .oneOf n _ => n
  | .constant n _ => n
  | .anyMap => "Map"
  | .anyIMap => "IMap"

/-- Optional-decimal equality (`self.minimum == other.minimum` on
`Decimal | None`). -/
def optDecEq : Option Dec → Option Dec → Bool
  | none, none => true
  | some a, some b => decValEq a b
  | _, _ => false

/-- Equality of the optional `enum` attributes of bitfields and tuples:
`SHVTypeEnum` inherits `dict.__eq__`, which compares contents and ignores
the name. -/
def optEnumEq : Option SHVType → Option SHVType → Bool
  | none, none => true
  | some (.enum _ v1), some (.enum _ v2) => v1 == v2
  | _, _ => false

/-- The value `shvBlob`: the interned singleton of the unconstrained Blob
type.  No other object with this content can exist (the constructor raises
"Please use shvBlob instead"), so value equality with this particular
content models Python object identity with the singleton. -/
def isShvBlobSingleton : SHVType → Bool
  | .blob nm mn mx => nm == "Blob" && mn.isNone && mx.isNone
  | _ => false

mutual

/-- Python `a == b` on two type instances: dispatches to the `__eq__` of the
left operand exactly as the source defines them.  In particular
`SHVTypeBlob.__eq__` tests `isinstance(value, SHVTypeString)` (the slip this
development exposes), `SHVTypeAlias.__eq__` first compares its underlying
type against the right operand directly, and names are ignored everywhere
except through identity of the singleton classes. -/
def typeEq : SHVType → SHVType → Bool
  | .any, .any => true
  | .any, _ => false
  | .null, .null => true
  | .null, _ => false
  | .bool, .bool => true
  | .bool, _ => false
  | .dateTime, .dateTime => true
  | .dateTime, _ => false
  | .int a, .int b =>
      a.minimum == b.minimum && a.maximum == b.maximum && a.multipleOf == b.multipleOf
  | .int _, _ => false
  | .double _ mn1 mx1 emn1 emx1 mo1, .double _ mn2 mx2 emn2 emx2 mo2 =>
      mn1 == mn2 && mx1 == mx2 && emn1 == emn2 && emx1 == emx2 && mo1 == mo2
  | .double _ _ _ _ _ _, _ => false
  | .decimal _ mn1 mx1, .decimal _ mn2 mx2 => optDecEq mn1 mn2 && optDecEq mx1 mx2
  | .decimal _ _ _, _ => false
  | .string _ mn1 mx1 p1, .string _ mn2 mx2 p2 => mn1 == mn2 && mx1 == mx2 && p1 == p2
  | .string _ _ _ _, _ => false
  | .blob _ mn1 mx1, .string _ mn2 mx2 _ => mn1 == mn2 && mx1 == mx2
  | .blob _ _ _, _ => false
  | .enum _ v1, .enum _ v2 => v1 == v2
  | .enum _ _, _ => false
  | .bitfield _ items1 en1 _, .bitfield _ items2 en2 _ =>
      optEnumEq en1 en2 && typeEqList items1 items2
  | .bitfield _ items1 en1 _, .tuple _ items2 en2 =>
      optEnumEq en1 en2 && typeEqList items1 items2
  | .bitfield _ _ _ _, _ => false
  | .tuple _ items1 en1, .tuple _ items2 en2 =>
      optEnumEq en1 en2 && typeEqList items1 items2
  | .tuple _ items1 en1, .bitfield _ items2 en2 _ =>
      optEnumEq en1 en2 && typeEqList items1 items2
  | .tuple _ _ _, _ => false
  | .listT _ al1 mn1 mx1, .listT _ al2 mn2 mx2 =>
      typeEq al1 al2 && mn1 == mn2 && mx1 == mx2
  | .listT _ _ _ _, _ => false
  | .mapT _ f1, .mapT _ f2 => typeEqSList f1 f2
  | .mapT _ _, _ => false
  | .imap _ _ f1, .imap _ _ f2 => typeEqIList f1 f2
  | .imap _ _ _, _ => false
  | .alias _ tp, other =>
      typeEq tp other ||
        (match other with
          | .alias _ tp2 => typeEq tp tp2
          | _ => false)
  | .oneOf _ t1, .oneOf _ t2 => typeEqList t1 t2
  | .oneOf _ _, _ => false
  | .constant _ v1, .constant _ v2 => rawEq v1 v2
  | .constant _ _, _ => false
  | .anyMap, .anyMap => true
  | .anyMap, _ => false
  | .anyIMap, .anyIMap => true
  | .anyIMap, _ => false
termination_by structural a => a

/-- Embeds `list.__eq__` on lists of types.  CPython's container comparison
(`PyObject_RichCompareBool`) short-circuits on object identity before
calling `__eq__`; across two loads of one document the only shared objects
are the builtin singletons, and the only singleton whose `__eq__` is not
reflexive is the unconstrained Blob — hence the explicit escape for it in
every container comparison. -/
def typeEqList : List SHVType → List SHVType → Bool
  | [], [] => true
  | a :: as1, b :: bs =>
      (typeEq a b || (isShvBlobSingleton a && isShvBlobSingleton b)) &&
        typeEqList as1 bs
  | _, _ => false

/-- Embeds `dict.__eq__` on string-keyed type dictionaries (orders agree because
both sides come from the same document). -/
def typeEqSList : List (String × SHVType) → List (String × SHVType) → Bool
  | [], [] => true
  | (k1, v1) :: as1, (k2, v2) :: bs =>
      k1 == k2 &&
        (typeEq v1 v2 || (isShvBlobSingleton v1 && isShvBlobSingleton v2)) &&
        typeEqSList as1 bs
  | _, _ => false

/-- Embeds `Mapping.__eq__` on the integer-keyed fields of imaps (the `enum`
attribute does not take part in it). -/
def typeEqIList : List (Int × SHVType) → List (Int × SHVType) → Bool
  | [], [] => true
  | (k1, v1) :: as1, (k2, v2) :: bs =>
      k1 == k2 &&
        (typeEq v1 v2 || (isShvBlobSingleton v1 && isShvBlobSingleton v2)) &&
        typeEqIList as1 bs
  | _, _ => false

end

/-- Elementwise comparison inside containers, as a standalone abbreviation
of the escape used in the mutual definitions above. -/
def typeEqElem (a b : SHVType) : Bool :=
  typeEq a b || (isShvBlobSingleton a && isShvBlobSingleton b)

/-- Embeds `SHVTypeEnum.validate` restricted to integer inputs:
`value in self.values()`. -/
def enumValidateInt (vals : List (String × Int)) (v : Int) : Bool :=
  vals.any (fun p => p.2 == v)

/-- The largest declared enum value (`max(self.values())`), `none` on an
empty enum (where Python `max` raises `ValueError`). -/
def enumMaxValue (vals : List (String × Int)) : Option Int :=
  match vals with
  | [] => none
  | (_, v) :: rest =>
      match enumMaxValue rest with
      | none => some v
      | some m => some (max v m)

/-- Embeds `SHVTypeBitfield.type_span`.  The first test is Python
`tp in (shvNull, shvBool)`, which compares with `==` (so an Alias of Null or
Bool also spans one bit); `SHVTypeEnum` is converted through
`enum.integer()`, which raises `ValueError` on an empty enum or a negative
maximal value. -/
def typeSpan (tp : SHVType) : Except PyErr (Option Nat) :=
  if typeEq tp .null || typeEq tp .bool then .ok (some 1)
  else
    match tp with
    | .enum _ vals =>
        match enumMaxValue vals with
        | none => .error (.valueError "max() arg is an empty sequence")
        | some m =>
            if m < 0 then
              .error (.valueError "Boundaries can't be less than zero for unsigned number")
            else
              -- integer() is unsigned with maximum m, so span = m.bit_length()
              .ok (some (bitLength m.toNat))
    | .int t =>
        if t.unsigned && t.maximum.isSome then
          .ok (some (bitLength ((t.maximum.getD 0).natAbs)))
        else
          .ok none
    | _ => .ok none

/-- Python identity test `tp is shvNull`: the Null singleton is the only
object of its class, so matching the bare constructor models identity. -/
def isNullT : SHVType → Bool
  | .null => true
  | _ => false

/-- Embeds `SHVTypeBitfield.types`: the components with their start bit and span.
Holes (`tp is shvNull`, an identity test, hence the bare `null`
constructor) are skipped; a component without a span hits the
`assert siz is not None`. -/
def bfTypesAux : List SHVType → Nat → Except PyErr (List (SHVType × Nat × Nat))
  | [], _ => .ok []
  | tp :: rest, i =>
      if isNullT tp then bfTypesAux rest (i + 1)
      else do
        match ← typeSpan tp with
        | none => .error .assertionError
        | some s => (bfTypesAux rest (i + s)).map (fun l => (tp, i, s) :: l)

/-- Embeds `SHVTypeBitfield.interpret`, fused with the `types` generator it
consumes: walk the components, extract the bits of each non-hole component,
validate them against the component type, and clear them from the working
value; returns the interpreted sub-values together with the residual
value. -/
def bfInterpretAux : List SHVType → Nat → Nat → Except PyErr (List RawValue × Nat)
  | [], _, value => .ok ([], value)
  | tp :: rest, i, value =>
      if isNullT tp then bfInterpretAux rest (i + 1) value
      else do
      match ← typeSpan tp with
      | none => .error .assertionError
      | some siz =>
          let v := (value >>> i) &&& (2 ^ siz - 1)
          let value1 := value ^^^ (value &&& ((2 ^ siz - 1) <<< i))
          match tp with
          | .bool =>
              (bfInterpretAux rest (i + siz) value1).map
                (fun r => (.bool (v != 0) :: r.1, r.2))
          | .enum _ vals =>
              if enumValidateInt vals (v : Int) then
                (bfInterpretAux rest (i + siz) value1).map
                  (fun r => (.int (v : Int) :: r.1, r.2))
              else
                .error (.valueError "bits do not match enum values")
          | .int t => do
              match ← t.validateInt (v : Int) with
              | true =>
                  (bfInterpretAux rest (i + siz) value1).map
                    (fun r => (.int (v : Int) :: r.1, r.2))
              | false => .error (.valueError "bits do not match integer limits")
          | _ => .error (.valueError "Can't interpret type")

/-- Embeds `SHVTypeBitfield.interpret` proper: in strict mode leftover set bits are
a `ValueError`. -/
def bfInterpret (items : List SHVType) (strict : Bool) (value : Nat) :
    Except PyErr (List RawValue) := do
  let r ← bfInterpretAux items 0 value
  if strict && r.2 != 0 then .error (.valueError "These unsued bits were set")
  else .ok r.1

/-- Embeds `SHVTypeBitfield.validate` on a (non-negative) integer input: `True` iff
`interpret` raises no `ValueError`; other exceptions (assertion errors from
spanless components, `ZeroDivisionError` from a zero `multiple_of`)
propagate. -/
def bfValidateNat (items : List SHVType) (strict : Bool) (value : Nat) :
    Except PyErr Bool :=
  match bfInterpret items strict value with
  | .ok _ => .ok true
  | .error (.valueError _) => .ok false
  | .error e => .error e

/-- Lookup in an enum dictionary (`self.enum[bit]`). -/
def enumLookup (vals : List (String × Int)) (key : String) : Option Int :=
  match vals with
  | [] => none
  | (k, v) :: rest => if k == key then some v else enumLookup rest key

/-- Embeds the rebuild loop of `SHVTypeBitfield.set`: walk the previous items
tracking their accumulated bit offset, append the new component when the
offset reaches the requested bit, drop holes the new component covers, and
refuse to replace a non-hole component whose start lies at the requested bit
or inside the inserted span.  After the loop, pad with holes when the
requested bit lies at or beyond the end.  The offset advances by
`type_span(item) or 0`, evaluated after the branch (its exceptions
propagate). -/
def bfSetAux (bit : Int) (valsiz : Nat) (value : SHVType) :
    List SHVType → Int → Except PyErr (List SHVType)
  | [], offset =>
      .ok (if offset ≤ bit then
        List.replicate (bit - offset).toNat SHVType.null ++ [value]
      else [])
  | item :: rest, offset => do
      if offset == bit then
        if isNullT item then do
          let sp ← typeSpan item
          let l ← bfSetAux bit valsiz value rest (offset + (sp.getD 0 : Nat))
          .ok (value :: l)
        else .error (.valueError "Replacement is not allowed")
      else if bit < offset && offset < bit + (valsiz : Int) then
        if isNullT item then do
          let sp ← typeSpan item
          bfSetAux bit valsiz value rest (offset + (sp.getD 0 : Nat))
        else .error (.valueError "Replacement is not allowed")
      else do
        let sp ← typeSpan item
        let l ← bfSetAux bit valsiz value rest (offset + (sp.getD 0 : Nat))
        .ok (item :: l)

/-- Embeds `SHVTypeBitfield.set`: resolve a string key through the alias
enum, reject components without a span, then rebuild the item list. -/
def bfSet (items : List SHVType) (en : Option SHVType) (bit : Int ⊕ String)
    (value : SHVType) : Except PyErr (List SHVType) := do
  let b ← match bit with
    | .inl i => pure i
    | .inr s =>
        match en with
        | none => .error (.keyError "No enum provided")
        | some (.enum _ vals) =>
            match enumLookup vals s with
            | some i => pure i
            | none => .error (.keyError s)
        | some _ => .error (.unmodelled "enum attribute is not an enum")
  match ← typeSpan value with
  | none => .error (.valueError "type can't be included in bitfield")
  | some valsiz => bfSetAux b valsiz value items 0

/-- Insertion into a sorted list of integers. -/
def insertSortedInt (x : Int) : List Int → List Int
  | [] => [x]
  | y :: ys => if x ≤ y then x :: y :: ys else y :: insertSortedInt x ys

/-- Insertion sort for integers. -/
def sortInts : List Int → List Int
  | [] => []
  | x :: xs => insertSortedInt x (sortInts xs)

/-- Embeds `SHVTypeBitfield.from_enum`: place a Bool at every distinct value
of the enum.  Python iterates `set(enum.values())` in an
implementation-defined but fixed order; placements at distinct bits commute,
so ascending order is used here. -/
def bfFromEnum (name : String) (en : SHVType) : Except PyErr SHVType := do
  let vals := match en with
    | .enum _ vs => vs.map Prod.snd
    | _ => []
  let bits := sortInts vals.eraseDups
  let items ← bits.foldlM (fun acc i => bfSet acc (some en) (.inl i) .bool) []
  .ok (.bitfield name items (some en) true)

mutual

/-- Embeds `SHVTypeAny.validate`: scalars are accepted outright; sequences
recurse into every element; mappings need homogeneous key types (always true
of the two mapping shapes of the value model) and valid values. -/
def anyValidate : RawValue → Bool
  | .null => true
  | .bool _ => true
  | .int _ => true
  | .float _ => true
  | .dec _ => true
  | .bytes _ => true
  | .str _ => true
  | .dateTime _ => true
  | .seq l => anyValidateList l
  | .map l => anyValidateSList l
  | .imapv l => anyValidateIList l

/-- Validation of every element of a sequence by `Any`. -/
def anyValidateList : List RawValue → Bool
  | [] => true
  | v :: rest => anyValidate v && anyValidateList rest

/-- Validation of every value of a string-keyed mapping by `Any`. -/
def anyValidateSList : List (String × RawValue) → Bool
  | [] => true
  | (_, v) :: rest => anyValidate v && anyValidateSList rest

/-- Validation of every value of an integer-keyed mapping by `Any`. -/
def anyValidateIList : List (Int × RawValue) → Bool
  | [] => true
  | (_, v) :: rest => anyValidate v && anyValidateIList rest

end

/-- Membership test of `NamedSet` for a string key. -/
def nsContains {α : Type} (nameOf : α → String) (l : List α) (nm : String) : Bool :=
  l.any (fun t => nameOf t == nm)

/-- Embeds `NamedSet.__getitem__`: the first element with the requested
name, or a `KeyError`. -/
def nsGet {α : Type} (nameOf : α → String) (l : List α) (nm : String) :
    Except PyErr α :=
  match l.find? (fun t => nameOf t == nm) with
  | some t => .ok t
  | none => .error (.keyError ("No item for key: " ++ nm))

/-- Embeds `NamedSet.add`: appends, refusing duplicate names. -/
def nsAdd {α : Type} (nameOf : α → String) (l : List α) (x : α) :
    Except PyErr (List α) :=
  if nsContains nameOf l (nameOf x) then
    .error (.valueError
      ("Object with name '" ++ nameOf x ++ "' is already present in the set."))
  else
    .ok (l ++ [x])

/-- Replacement of the entry stored under a name — the value-semantics
rendering of mutating an object that is already inside the collection. -/
def nsReplace {α : Type} (nameOf : α → String) (l : List α) (nm : String) (x : α) :
    List α :=
  match l with
  | [] => []
  | t :: rest =>
      if nameOf t == nm then x :: rest else t :: nsReplace nameOf rest nm x

/-- Embeds `NamedSet.__delitem__`: looks the object up by name and then
removes the first `==`-equal element (`list.remove` semantics, which can
remove an earlier equal object, not necessarily the named one). -/
def nsDeleteType (l : List SHVType) (nm : String) : Except PyErr (List SHVType) := do
  let target ← nsGet typeName l nm
  let rec go : List SHVType → Except PyErr (List SHVType)
    | [] => .error (.valueError "list.remove(x): x not in list")
    | t :: rest =>
        if typeEq t target then .ok rest
        else (go rest).map (fun r => t :: r)
  go l

/-- Modelled flag bits of the external `shv.RpcMethodFlags` enum.  Only the
members this repository mentions are modelled; the numeric values are
internal to the embedding (methods are only ever compared for equality of
whole flag sets). -/
def rpcFlagTable : List (String × Nat) :=
  [("NOT_CALLABLE", 1), ("GETTER", 2), ("SETTER", 4), ("LARGE_RESULT_HINT", 8)]

/-- Embeds the SHV method description `SHVMethod`.  The `access` level is
stored but takes no part in equality (faithful to `SHVMethod.__eq__`); it is
kept as an uninterpreted document value. -/
structure SHVMethod where
  name : String
  param : SHVType
  result : SHVType
  flags : Nat
  access : RawValue
  description : RawValue
deriving Repr

/-- Embeds `SHVMethod.__init__`: the standard method names are reserved. -/
def mkSHVMethod (name : String) (param result : SHVType) (flags : Nat)
    (access : RawValue) (description : RawValue) : Except PyErr SHVMethod :=
  if name == "ls" || name == "dir" || name == "lsmod" then
    .error (.valueError ("Defining standard method " ++ name ++ " is not allowed"))
  else
    .ok ⟨name, param, result, flags, access, description⟩

/-- Embeds `SHVMethod.__eq__`: name, parameter and result types, flags and
description — but not the access level. -/
def methodEq (a b : SHVMethod) : Bool :=
  a.name == b.name && typeEq a.param b.param && typeEq a.result b.result &&
    a.flags == b.flags && rawEq a.description b.description

/-- Builtin `shvDouble` as a type value. -/
def shvDoubleT : SHVType := .double "Double" none none none none none

/-- Builtin `shvDecimal` as a type value. -/
def shvDecimalT : SHVType := .decimal "Decimal" none none

/-- Builtin `shvString` as a type value. -/
def shvStringT : SHVType := .string "String" none none none

/-- Builtin `shvBlob` as a type value (the singleton whose equality the
`SHVTypeBlob.__eq__` slip breaks). -/
def shvBlobT : SHVType := .blob "Blob" none none

/-- Builtin `shvList` as a type value. -/
def shvListBuiltin : SHVType := .listT "List" .any 0 none

/-- Builtin `shvOptionalString`. -/
def shvOptionalString : SHVType := .oneOf "OptionalString" [.null, shvStringT]

/-- Builtin `shvGetParam`. -/
def shvGetParam : SHVType := .alias "_getParam" shvOptionalString

/-- Embeds `shvBuiltins` of `types_builtins.py`, in source order.  The `Map`
and `IMap` entries stand for `SHVTypeAnyMap()`/`SHVTypeAnyIMap()`, whose
classes are not part of the provided sources and are modelled from the
spec's builtin list. -/
def shvBuiltins : List SHVType :=
  [.any, .null, .bool,
   .int shvInt, .int shvInt8, .int shvInt16, .int shvInt32, .int shvInt64,
   .int shvUInt, .int shvUInt8, .int shvUInt16, .int shvUInt32, .int shvUInt64,
   shvDoubleT, shvDecimalT, shvStringT, shvBlobT, .dateTime, shvListBuiltin,
   .anyMap, .anyIMap, shvOptionalString, shvGetParam]

/-- Embeds the SHV node description `SHVNode` (name, children, methods,
description). -/
inductive SHVNode where
  | mk (name : String) (nodes : List SHVNode) (methods : List SHVMethod)
      (description : RawValue)
deriving Repr

/-- Name of a node. -/
def SHVNode.name : SHVNode → String
  | .mk n _ _ _ => n

/-- Children of a node. -/
def SHVNode.nodes : SHVNode → List SHVNode
  | .mk _ ns _ _ => ns

/-- Methods of a node. -/
def SHVNode.methods : SHVNode → List SHVMethod
  | .mk _ _ ms _ => ms

/-- Description of a node. -/
def SHVNode.description : SHVNode → RawValue
  | .mk _ _ _ d => d

mutual

/-- Embeds `SHVNode.__eq__`: name, children, methods and description.  The
`NamedSet` attributes compare as dictionaries (`Mapping.__eq__`); both sides
always stem from the same document here, so the insertion orders agree and
pairwise comparison is faithful. -/
def nodeEq : SHVNode → SHVNode → Bool
  | .mk n1 nodes1 m1 d1, .mk n2 nodes2 m2 d2 =>
      n1 == n2 && nodeListEq nodes1 nodes2 && methodListEq m1 m2 && rawEq d1 d2

/-- Dictionary comparison of two child-node collections. -/
def nodeListEq : List SHVNode → List SHVNode → Bool
  | [], [] => true
  | a :: as1, b :: bs => nodeEq a b && nodeListEq as1 bs
  | _, _ => false

/-- Dictionary comparison of two method collections. -/
def methodListEq : List SHVMethod → List SHVMethod → Bool
  | [], [] => true
  | a :: as1, b :: bs => methodEq a b && methodListEq as1 bs
  | _, _ => false

end

/-- Dictionary comparison of two custom-type collections (`tree.types`):
keys are the names, values compare as container elements. -/
def typeSetEq : List SHVType → List SHVType → Bool
  | [], [] => true
  | a :: as1, b :: bs => typeName a == typeName b && typeEqElem a b && typeSetEq as1 bs
  | _, _ => false

/-- Embeds the tree root `SHVTree`: a node with an empty name, no own
methods and an empty description, plus the custom-type collection. -/
structure SHVTree where
  nodes : List SHVNode
  types : List SHVType
deriving Repr

/-- Embeds `SHVTree.__eq__` (via `SHVNode.__eq__` on the root): the root
name, methods and description are fixed by the constructor, so the
comparison reduces to the children and the custom types. -/
def treeEq (a b : SHVTree) : Bool :=
  nodeListEq a.nodes b.nodes && typeSetEq a.types b.types

/-- Embeds `SHVTree.get_type`: builtins take precedence; a custom type is
looked up with `NamedSet.__getitem__`, whose failure is a `KeyError` — not
the `None` promised by the method's own docstring. -/
def treeGetType (t : SHVTree) (nm : String) : Except PyErr SHVType :=
  if nsContains typeName shvBuiltins nm then nsGet typeName shvBuiltins nm
  else nsGet typeName t.types nm

/-- Embeds `SHVMethod.new_signal`. -/
def newSignal (name : String) (dtype : SHVType) (flags : Nat) : Except PyErr SHVMethod :=
  mkSHVMethod name .null dtype (flags ||| 1) (.str "READ") (.str "")

/-- Embeds `SHVMethod.new_getter`. -/
def newGetter (dtype : SHVType) : Except PyErr SHVMethod :=
  mkSHVMethod "get" shvGetParam dtype 2 (.str "READ") (.str "")

/-- Embeds `SHVMethod.new_setter`. -/
def newSetter (dtype : SHVType) : Except PyErr SHVMethod :=
  mkSHVMethod "set" dtype .null 4 (.str "WRITE") (.str "")

/-- Embeds `SHVNode.make_property`: always add a getter; add a setter unless
read-only; add the change signal when `signal` is truthy or is `None` on a
non-read-only node; the signal name is `signal` itself when it is a string
and `"chng"` otherwise. -/
def makeProperty (methods : List SHVMethod) (dtype : SHVType) (readonly : Bool)
    (signal : RawValue) : Except PyErr (List SHVMethod) := do
  let g ← newGetter dtype
  let ms ← nsAdd SHVMethod.name methods g
  let ms ← if !readonly then do
      let s ← newSetter dtype
      nsAdd SHVMethod.name ms s
    else pure ms
  if signal.truthy ||
      ((match signal with | .null => true | _ => false) && !readonly) then
    let snm := match signal with
      | .str s => s
      | _ => "chng"
    let sg ← newSignal snm dtype 0
    nsAdd SHVMethod.name ms sg
  else
    pure ms

/-- Formats `SHVTreeValueError`: dotted location plus message, bare message
at the document root. -/
def mkTreeErr (loc : List String) (msg : String) : PyErr :=
  .valueError (if loc.isEmpty then msg else String.intercalate "." loc ++ ": " ++ msg)

/-- Removal of the first binding of a key from a document mapping
(`dict.pop` with a default of "absent"). -/
def dictPop (entries : List (String × RawValue)) (key : String) :
    Option RawValue × List (String × RawValue) :=
  match entries with
  | [] => (none, [])
  | (k, v) :: rest =>
      if k == key then (some v, rest)
      else
        let r := dictPop rest key
        (r.1, (k, v) :: r.2)

/-- Update-or-append on a string-keyed dictionary (`d[k] = v`). -/
def dictSetStr {α : Type} (entries : List (String × α)) (key : String) (v : α) :
    List (String × α) :=
  match entries with
  | [] => [(key, v)]
  | (k, w) :: rest =>
      if k == key then (k, v) :: rest else (k, w) :: dictSetStr rest key v

/-- Update-or-append on an integer-keyed dictionary. -/
def dictSetInt {α : Type} (entries : List (Int × α)) (key : Int) (v : α) :
    List (Int × α) :=
  match entries with
  | [] => [(key, v)]
  | (k, w) :: rest =>
      if k == key then (k, v) :: rest else (k, w) :: dictSetInt rest key v

/-- Coercion to `collections.abc.Sequence` as the source tests it: lists,
strings (sequences of one-character strings) and bytes (sequences of
integers) qualify; mappings and scalars do not. -/
def rawAsSeq : RawValue → Option (List RawValue)
  | .seq l => some l
  | .str s => some (s.toList.map (fun c => .str (String.singleton c)))
  | .bytes l => some (l.map (fun n => .int (Int.ofNat n)))
  | _ => none

/-- Coercion to `collections.abc.Mapping` (string-keyed only; the document
formats in use produce string keys). -/
def rawAsMapEntries : RawValue → Option (List (String × RawValue))
  | .map e => some e
  | _ => none

/-- Python `for x in value` iteration: sequences yield elements, mappings
yield their keys. -/
def rawIter : RawValue → Option (List RawValue)
  | .seq l => some l
  | .str s => some (s.toList.map (fun c => .str (String.singleton c)))
  | .bytes l => some (l.map (fun n => .int (Int.ofNat n)))
  | .map e => some (e.map (fun kv => .str kv.1))
  | .imapv e => some (e.map (fun kv => .int kv.1))
  | _ => none

/-- Coercion for `isinstance(x, int | float)` into an exact rational. -/
def rawAsRat : RawValue → Option Rat
  | .int i => some (i : Rat)
  | .bool b => some (if b then 1 else 0)
  | .float q => some q
  | _ => none

/-- Normalization of a popped optional value at the spots where the source
tests `value is not None`: an explicit document `null` behaves like an
absent key. -/
def optNorm (o : Option RawValue) : Option RawValue :=
  match o with
  | some .null => none
  | x => x

/-- Smallest power `k ≤ fuel` with `d ∣ 10 ^ k`, used to express a dyadic
float exactly in decimal. -/
def decFindPow (d : Nat) : Nat → Nat
  | 0 => 0
  | f + 1 => if (10 ^ (64 - (f + 1))) % d == 0 then 64 - (f + 1) else decFindPow d f

/-- Conversion `decimal.Decimal(float)`: binary floats are dyadic rationals
and convert exactly; non-dyadic rationals (unreachable from Python floats)
fall back to exponent zero truncation. -/
def decFromRat (q : Rat) : Dec :=
  let k := decFindPow q.den 64
  if (10 ^ k) % q.den == 0 then
    .num (q.num * ((10 ^ k) / (q.den : Int))) (-(k : Int))
  else
    .num (q.num / (q.den : Int)) 0

/-- Digit parser: consumes leading digits, returning them and the rest. -/
def decTakeDigits : List Char → (List Nat × List Char)
  | [] => ([], [])
  | c :: rest =>
      if c.isDigit then
        let r := decTakeDigits rest
        ((c.toNat - 48) :: r.1, r.2)
      else
        ([], c :: rest)

/-- Digits to an integer accumulator. -/
def decDigitsVal (ds : List Nat) : Int :=
  ds.foldl (fun acc d => acc * 10 + (d : Int)) 0

/-- Parser for the body of a decimal literal after the sign:
`digits [. digits] [e sign digits]`, `inf`/`infinity`, or `nan`/`snan`. -/
def decParseBody (cs : List Char) (negSign : Bool) : Option Dec :=
  if cs = ['i', 'n', 'f'] || cs = ['i', 'n', 'f', 'i', 'n', 'i', 't', 'y'] then
    some (.inf negSign)
  else if cs.take 3 = ['n', 'a', 'n'] && (cs.drop 3).all Char.isDigit then
    some Dec.nan
  else if cs.take 4 = ['s', 'n', 'a', 'n'] && (cs.drop 4).all Char.isDigit then
    some Dec.nan
  else
    let (ip, rest1) := decTakeDigits cs
    let (fp, rest2) :=
      match rest1 with
      | '.' :: r =>
          let t := decTakeDigits r
          (t.1, t.2)
      | _ => ([], rest1)
    if ip.isEmpty && fp.isEmpty then none
    else
      let mant := decDigitsVal (ip ++ fp)
      let mant := if negSign then -mant else mant
      match rest2 with
      | [] => some (.num mant (-(fp.length : Int)))
      | e :: r =>
          if e = 'e' then
            let (eneg, r2) :=
              match r with
              | '-' :: rr => (true, rr)
              | '+' :: rr => (false, rr)
              | _ => (false, r)
            let (eds, r3) := decTakeDigits r2
            if eds.isEmpty || !r3.isEmpty then none
            else
              let ev := decDigitsVal eds
              some (.num mant ((if eneg then -ev else ev) - (fp.length : Int)))
          else none

/-- Parser for `decimal.Decimal(str)` (best effort for the grammar the
documents use; a failure models `decimal.InvalidOperation`). -/
def decParse (s : String) : Option Dec :=
  match s.toLower.toList with
  | '-' :: rest => decParseBody rest true
  | '+' :: rest => decParseBody rest false
  | cs => decParseBody cs false

/-- Conversion `decimal.Decimal(x)` for the types `_load_decimal` admits. -/
def decOfRaw : RawValue → Except PyErr Dec
  | .int i => .ok (.num i 0)
  | .bool b => .ok (.num (if b then 1 else 0) 0)
  | .float q => .ok (decFromRat q)
  | .str s =>
      match decParse s with
      | some d => .ok d
      | none => .error .invalidOperation
  | _ => .error (.unmodelled "Decimal() of unsupported value")

/-- Embeds `SHVTypeDouble.__new__`/`__init__`. -/
def mkSHVTypeDouble (name : String)
    (minimum maximum exclusiveMinimum exclusiveMaximum multipleOf : Option Rat) :
    Except PyErr SHVType :=
  if minimum.isNone && maximum.isNone && exclusiveMinimum.isNone &&
      exclusiveMaximum.isNone && multipleOf.isNone && name != "Double" then
    .error (.valueError "Please use shvDouble instead")
  else
    .ok (.double name minimum maximum exclusiveMinimum exclusiveMaximum multipleOf)

/-- Embeds `SHVTypeDecimal.__new__`/`__init__`. -/
def mkSHVTypeDecimal (name : String) (minimum maximum : Option Dec) :
    Except PyErr SHVType :=
  if minimum.isNone && maximum.isNone && name != "Decimal" then
    .error (.valueError "Please use shvDecimal instead")
  else
    .ok (.decimal name minimum maximum)

/-- Embeds `SHVTypeString.__new__`/`__init__` (the `re.compile` of the
pattern is not modelled: an invalid regular expression would abort the load
in Python, which only shrinks the set of documents this embedding covers). -/
def mkSHVTypeString (name : String) (minLength maxLength : Option Int)
    (pattern : Option String) : Except PyErr SHVType :=
  if minLength.isNone && maxLength.isNone && pattern.isNone && name != "String" then
    .error (.valueError "Please use shvString instead")
  else
    .ok (.string name minLength maxLength pattern)

/-- Embeds `SHVTypeBlob.__new__`/`__init__`. -/
def mkSHVTypeBlob (name : String) (minLength maxLength : Option Int) :
    Except PyErr SHVType :=
  if minLength.isNone && maxLength.isNone && name != "Blob" then
    .error (.valueError "Please use shvBlob instead")
  else
    .ok (.blob name minLength maxLength)

/-- Stands for the external `shv.Cpon.unpack`.  The loader only uses it
opportunistically (`try/except` keeps the raw string on failure) and every
downstream use of the produced constant value — validation by `Any` and
structural equality — is insensitive to whether the parse succeeded, so the
external parser is modelled as never succeeding. -/
def cponUnpack (_ : String) : Option RawValue := none

/-- Embeds `_load_enumlike`: interprets a document list as enum entries,
skipping holes (`None` advances by one, an integer advances by its value)
and yielding name/value pairs from strings and inline mappings. -/
def loadEnumlike (loc : List String) (values : RawValue) :
    Except PyErr (List (String × Int)) := do
  match rawAsSeq values with
  | none => .error (mkTreeErr loc "Invalid type, list expected.")
  | some l =>
      let rec go : List RawValue → Int → Except PyErr (List (String × Int))
        | [], _ => .ok []
        | .null :: rest, nexti => go rest (nexti + 1)
        | .bool b :: rest, nexti => go rest (nexti + (if b then 1 else 0))
        | .int v :: rest, nexti => go rest (nexti + v)
        | .str s :: rest, nexti =>
            (go rest (nexti + 1)).map (fun r => (s, nexti) :: r)
        | .map entries :: rest, nexti => do
            let rec inner : List (String × RawValue) → Int →
                Except PyErr (List (String × Int) × Int)
              | [], nx => .ok ([], nx)
              | (k, kv) :: irest, _ => do
                  match kv.asInt with
                  | none => .error (mkTreeErr (loc ++ [k]) "Expected int!")
                  | some v =>
                      (inner irest (v + 1)).map (fun r => ((k, v) :: r.1, r.2))
            let r ← inner entries nexti
            (go rest r.2).map (fun t => r.1 ++ t)
        | _ :: _, _ => .error (mkTreeErr loc "Invalid value specifier")
      go l 0

/-- State of `_TypesLoader`: the named collection built so far and the
work queue of names still to load. -/
structure TLState where
  types : List SHVType
  toLoad : List String
deriving Repr

/-- Embeds `_load_int`.  Note the faithful slip in the `unsigned` check: the
source tests `isinstance(multiple_of, bool)` — not `unsigned` — so a
document using `unsigned` is rejected unless its `multipleOf` is a boolean. -/
def tlLoadInt (st : TLState) (loc : List String) (name : String)
    (attrs : List (String × RawValue)) :
    Except PyErr (TLState × List (String × RawValue)) := do
  let (mnRaw, a1) := dictPop attrs "minimum"
  let mn? ← match optNorm mnRaw with
    | none => pure none
    | some v =>
        match v.asInt with
        | none => .error (mkTreeErr (loc ++ ["minimum"]) "Expected integer")
        | some i => pure (some i)
  let (mxRaw, a2) := dictPop a1 "maximum"
  let mx? ← match optNorm mxRaw with
    | none => pure none
    | some v =>
        match v.asInt with
        | none => .error (mkTreeErr (loc ++ ["maximum"]) "Expected integer")
        | some i => pure (some i)
  let (moRaw, a3) := dictPop a2 "multipleOf"
  let moNorm := optNorm moRaw
  let mo? ← match moNorm with
    | none => pure none
    | some v =>
        match v.asInt with
        | none => .error (mkTreeErr (loc ++ ["multiple_of"]) "Expected integer")
        | some i => pure (some i)
  let (usRaw, a4) := dictPop a3 "unsigned"
  let us? := optNorm usRaw
  if us?.isSome && !(match moNorm with | some (.bool _) => true | _ => false) then
    .error (mkTreeErr (loc ++ ["unsigned"]) "Expected bool")
  else do
    let t ← mkSHVTypeInt name mn? mx? mo? (us?.map RawValue.truthy)
    let ts ← nsAdd typeName st.types (.int t)
    .ok ({ st with types := ts }, a4)

/-- Embeds `_load_double`. -/
def tlLoadDouble (st : TLState) (loc : List String) (name : String)
    (attrs : List (String × RawValue)) :
    Except PyErr (TLState × List (String × RawValue)) := do
  let (mnRaw, a1) := dictPop attrs "minimum"
  let mn? ← match optNorm mnRaw with
    | none => pure none
    | some v =>
        match rawAsRat v with
        | none => .error (mkTreeErr (loc ++ ["minimum"]) "Expected float")
        | some q => pure (some q)
  let (emnRaw, a2) := dictPop a1 "exclusiveMinimum"
  let emn? ← match optNorm emnRaw with
    | none => pure none
    | some v =>
        match rawAsRat v with
        | none => .error (mkTreeErr (loc ++ ["exclusive_minimum"]) "Expected float")
        | some q => pure (some q)
  let (mxRaw, a3) := dictPop a2 "maximum"
  let mx? ← match optNorm mxRaw with
    | none => pure none
    | some v =>
        match rawAsRat v with
        | none => .error (mkTreeErr (loc ++ ["maximum"]) "Expected float")
        | some q => pure (some q)
  let (emxRaw, a4) := dictPop a3 "exclusiveMaximum"
  let emx? ← match optNorm emxRaw with
    | none => pure none
    | some v =>
        match rawAsRat v with
        | none => .error (mkTreeErr (loc ++ ["exclusive_maximum"]) "Expected float")
        | some q => pure (some q)
  let (moRaw, a5) := dictPop a4 "multipleOf"
  let mo? ← match optNorm moRaw with
    | none => pure none
    | some v =>
        match rawAsRat v with
        | none => .error (mkTreeErr (loc ++ ["multiple_of"]) "Expected float")
        | some q => pure (some q)
  let t ← mkSHVTypeDouble name mn? mx? emn? emx? mo?
  let ts ← nsAdd typeName st.types t
  .ok ({ st with types := ts }, a5)

/-- Embeds `_load_decimal`. -/
def tlLoadDecimal (st : TLState) (loc : List String) (name : String)
    (attrs : List (String × RawValue)) :
    Except PyErr (TLState × List (String × RawValue)) := do
  let (mnRaw, a1) := dictPop attrs "minimum"
  let mn? ← match optNorm mnRaw with
    | none => pure none
    | some v =>
        match v with
        | .int _ | .bool _ | .float _ | .str _ => (decOfRaw v).map some
        | _ => .error (mkTreeErr (loc ++ ["minimum"]) "Expected decimal")
  let (mxRaw, a2) := dictPop a1 "maximum"
  let mx? ← match optNorm mxRaw with
    | none => pure none
    | some v =>
        match v with
        | .int _ | .bool _ | .float _ | .str _ => (decOfRaw v).map some
        | _ => .error (mkTreeErr (loc ++ ["maximum"]) "Expected decimal")
  let t ← mkSHVTypeDecimal name mn? mx?
  let ts ← nsAdd typeName st.types t
  .ok ({ st with types := ts }, a2)

/-- Embeds `_load_string`.  The `minLength`/`maxLength` keys default to the
`length` value when absent. -/
def tlLoadString (st : TLState) (loc : List String) (name : String)
    (attrs : List (String × RawValue)) :
    Except PyErr (TLState × List (String × RawValue)) := do
  let (lenRaw, a1) := dictPop attrs "length"
  let len? ← match optNorm lenRaw with
    | none => pure none
    | some v =>
        match v.asInt with
        | none => .error (mkTreeErr (loc ++ ["length"]) "Expected integer")
        | some i => pure (some i)
  let (minRaw, a2) := dictPop a1 "minLength"
  let min? ← match minRaw with
    | none => pure len?
    | some v =>
        match optNorm (some v) with
        | none => pure none
        | some w =>
            match w.asInt with
            | none => .error (mkTreeErr (loc ++ ["min_length"]) "Expected integer")
            | some i => pure (some i)
  let (maxRaw, a3) := dictPop a2 "maxLength"
  let max? ← match maxRaw with
    | none => pure len?
    | some v =>
        match optNorm (some v) with
        | none => pure none
        | some w =>
            match w.asInt with
            | none => .error (mkTreeErr (loc ++ ["max_length"]) "Expected integer")
            | some i => pure (some i)
  let (patRaw, a4) := dictPop a3 "pattern"
  let pat? ← match optNorm patRaw with
    | none => pure none
    | some (.str s) => pure (some s)
    | some _ => .error (mkTreeErr (loc ++ ["pattern"]) "Expected string")
  let t ← mkSHVTypeString name min? max? pat?
  let ts ← nsAdd typeName st.types t
  .ok ({ st with types := ts }, a4)

/-- Embeds `_load_blob`. -/
def tlLoadBlob (st : TLState) (loc : List String) (name : String)
    (attrs : List (String × RawValue)) :
    Except PyErr (TLState × List (String × RawValue)) := do
  let (lenRaw, a1) := dictPop attrs "length"
  let len? ← match optNorm lenRaw with
    | none => pure none
    | some v =>
        match v.asInt with
        | none => .error (mkTreeErr (loc ++ ["length"]) "Expected integer")
        | some i => pure (some i)
  let (minRaw, a2) := dictPop a1 "minLength"
  let min? ← match minRaw with
    | none => pure len?
    | some v =>
        match optNorm (some v) with
        | none => pure none
        | some w =>
            match w.asInt with
            | none => .error (mkTreeErr (loc ++ ["min_length"]) "Expected integer")
            | some i => pure (some i)
  let (maxRaw, a3) := dictPop a2 "maxLength"
  let max? ← match maxRaw with
    | none => pure len?
    | some v =>
        match optNorm (some v) with
        | none => pure none
        | some w =>
            match w.asInt with
            | none => .error (mkTreeErr (loc ++ ["max_length"]) "Expected integer")
            | some i => pure (some i)
  let t ← mkSHVTypeBlob name min? max?
  let ts ← nsAdd typeName st.types t
  .ok ({ st with types := ts }, a3)

/-- Embeds `_load_enum`. -/
def tlLoadEnum (st : TLState) (loc : List String) (name : String)
    (attrs : List (String × RawValue)) :
    Except PyErr (TLState × List (String × RawValue)) := do
  let (valsRaw, a1) := dictPop attrs "values"
  let pairs ← loadEnumlike (loc ++ ["values"]) (valsRaw.getD (.seq []))
  let en := SHVType.enum name (pairs.foldl (fun acc kv => dictSetStr acc kv.1 kv.2) [])
  let ts ← nsAdd typeName st.types en
  .ok ({ st with types := ts }, a1)

/-- Embeds `_load_constant`. -/
def tlLoadConstant (st : TLState) (loc : List String) (name : String)
    (attrs : List (String × RawValue)) :
    Except PyErr (TLState × List (String × RawValue)) := do
  let (valueRaw, a1) := dictPop attrs "value"
  match optNorm valueRaw with
  | none => .error (mkTreeErr (loc ++ ["value"]) "Use shvNull instead.")
  | some v0 =>
      let v := match v0 with
        | .str s => match cponUnpack s with | some u => u | none => .str s
        | x => x
      if anyValidate v then do
        let ts ← nsAdd typeName st.types (.constant name v)
        .ok ({ st with types := ts }, a1)
      else
        .error (mkTreeErr (loc ++ ["value"]) "Invalid value")

mutual

/-- Embeds `_TypesLoader.load_all`: drain the work queue. -/
def tlLoadAll (fuel : Nat) (data : List (String × RawValue)) (st : TLState) :
    Except PyErr (List SHVType) :=
  match fuel with
  | 0 => .error .fuelExhausted
  | f + 1 =>
      match st.toLoad with
      | [] => .ok st.types
      | n :: rest => do
          let st1 ← tlLoad f data { st with toLoad := rest } n
          tlLoadAll f data st1

/-- Embeds `_TypesLoader.load`: loads one named declaration — a bare string
is an alias, a bare sequence an anonymous `OneOf`, a mapping dispatches on
its `type` discriminator. -/
def tlLoad (fuel : Nat) (data : List (String × RawValue)) (st : TLState)
    (name : String) : Except PyErr TLState :=
  match fuel with
  | 0 => .error .fuelExhausted
  | f + 1 =>
      let loc := ["types", name]
      if nsContains typeName shvBuiltins name then
        .error (mkTreeErr loc "Redefining builtin types is not allowed")
      else
        match (data.find? (fun kv => kv.1 == name)).map Prod.snd with
        | none => .error (.keyError name)
        | some value =>
            match value with
            | .str s => do
                let ts ← nsAdd typeName st.types (.alias name .any)
                let r ← tlGetType f data { st with types := ts } loc name (.str s)
                let st2 :=
                  { r.2 with types := nsReplace typeName r.2.types name (.alias name r.1) }
                if nsContains typeName st2.types name then .ok st2
                else .error .assertionError
            | v =>
                match rawAsSeq v with
                | some items => do
                    let ts ← nsAdd typeName st.types (.oneOf name [])
                    let r ← tlGetTypeList f data { st with types := ts } loc name items []
                    let st2 :=
                      { r.2 with
                        types := nsReplace typeName r.2.types name (.oneOf name r.1) }
                    if nsContains typeName st2.types name then .ok st2
                    else .error .assertionError
                | none =>
                    match rawAsMapEntries v with
                    | some attrs => do
                        let (tk, attrs1) := dictPop attrs "type"
                        match tk with
                        | none => .error (mkTreeErr loc "Missing 'type'")
                        | some tkv => do
                            let kind := match tkv with | .str s => s | _ => ""
                            let r ← tlLoadKind f data st loc name kind attrs1
                            if r.2.isEmpty then
                              if nsContains typeName r.1.types name then .ok r.1
                              else .error .assertionError
                            else
                              .error (mkTreeErr loc
                                ("Invalid keys: " ++
                                  String.intercalate ", " (r.2.map Prod.fst)))
                    | none =>
                        .error (mkTreeErr loc "Invalid type description format")

/-- Dispatch over the `loaders` table; an unknown discriminator falls back
to `_load_invalid`. -/
def tlLoadKind (fuel : Nat) (data : List (String × RawValue)) (st : TLState)
    (loc : List String) (name : String) (kind : String)
    (attrs : List (String × RawValue)) :
    Except PyErr (TLState × List (String × RawValue)) :=
  match fuel with
  | 0 => .error .fuelExhausted
  | f + 1 =>
      if kind == "Int" then tlLoadInt st loc name attrs
      else if kind == "Double" then tlLoadDouble st loc name attrs
      else if kind == "Decimal" then tlLoadDecimal st loc name attrs
      else if kind == "String" then tlLoadString st loc name attrs
      else if kind == "Blob" then tlLoadBlob st loc name attrs
      else if kind == "Enum" then tlLoadEnum st loc name attrs
      else if kind == "Bitfield" then tlLoadBitfield f data st loc name attrs
      else if kind == "List" then tlLoadList f data st loc name attrs
      else if kind == "Tuple" then tlLoadTuple f data st loc name attrs
      else if kind == "Map" then tlLoadMap f data st loc name attrs
      else if kind == "IMap" then tlLoadImap f data st loc name attrs
      else if kind == "Constant" then tlLoadConstant st loc name attrs
      else .error (mkTreeErr loc ("Invalid type of the '" ++ name ++ "' type."))

/-- Embeds `_TypesLoader.get_type`: `None` is `shvNull`; a string resolves
against builtins, the loaded collection, and the work queue (loading on
demand — this is how forward references resolve); a sequence becomes an
anonymous `OneOf`. -/
def tlGetType (fuel : Nat) (data : List (String × RawValue)) (st : TLState)
    (loc : List String) (name : String) (value : RawValue) :
    Except PyErr (SHVType × TLState) :=
  match fuel with
  | 0 => .error .fuelExhausted
  | f + 1 =>
      match value with
      | .null => .ok (.null, st)
      | .str s =>
          if nsContains typeName shvBuiltins s then
            (nsGet typeName shvBuiltins s).map (fun t => (t, st))
          else if nsContains typeName st.types s then
            (nsGet typeName st.types s).map (fun t => (t, st))
          else if st.toLoad.contains s then do
            let st1 ← tlLoad f data { st with toLoad := st.toLoad.erase s } s
            let tp ← nsGet typeName st1.types s
            .ok (tp, st1)
          else
            .error (mkTreeErr loc "Invalid type referenced.")
      | v =>
          match rawAsSeq v with
          | some items => do
              let ts ← nsAdd typeName st.types (.oneOf (name ++ "OneOf") [])
              let r ← tlGetTypeList f data { st with types := ts } loc
                (name ++ "OneOf") items []
              let filled := SHVType.oneOf (name ++ "OneOf") r.1
              .ok (filled,
                { r.2 with
                  types := nsReplace typeName r.2.types (name ++ "OneOf") filled })
          | none => .error (mkTreeErr loc "Invalid type referenced.")

/-- Threading of `get_type` over the members of a type-reference sequence. -/
def tlGetTypeList (fuel : Nat) (data : List (String × RawValue)) (st : TLState)
    (loc : List String) (name : String) (items : List RawValue)
    (acc : List SHVType) : Except PyErr (List SHVType × TLState) :=
  match fuel with
  | 0 => .error .fuelExhausted
  | f + 1 =>
      match items with
      | [] => .ok (acc, st)
      | v :: rest => do
          let r ← tlGetType f data st loc name v
          tlGetTypeList f data r.2 loc name rest (acc ++ [r.1])

/-- Embeds `_TypesLoader._load_subenum`: a string must reference an existing
enum; an inline list builds a fresh `<name>Enum` added to the collection. -/
def tlSubEnum (fuel : Nat) (data : List (String × RawValue)) (st : TLState)
    (loc : List String) (name : String) (enumRaw : RawValue) :
    Except PyErr (SHVType × TLState) :=
  match fuel with
  | 0 => .error .fuelExhausted
  | f + 1 =>
      match enumRaw with
      | .str s => do
          let r ← tlGetType f data st loc name (.str s)
          match r.1 with
          | .enum _ _ => .ok r
          | _ => .error (mkTreeErr loc ("Type '" ++ s ++ "' is not Enum"))
      | v => do
          let pairs ← loadEnumlike loc v
          let en := SHVType.enum (name ++ "Enum")
            (pairs.foldl (fun acc kv => dictSetStr acc kv.1 kv.2) [])
          let ts ← nsAdd typeName st.types en
          .ok (en, { st with types := ts })

/-- Embeds `_load_bitfield`: an optional `types` list placed with
`Bitfield.set`, then an optional alias `enum` — which, when no `types` were
given, replaces the stub with `from_enum` (deleting the stub first). -/
def tlLoadBitfield (fuel : Nat) (data : List (String × RawValue)) (st : TLState)
    (loc : List String) (name : String) (attrs : List (String × RawValue)) :
    Except PyErr (TLState × List (String × RawValue)) :=
  match fuel with
  | 0 => .error .fuelExhausted
  | f + 1 => do
      let ts ← nsAdd typeName st.types (.bitfield name [] none true)
      let st := { st with types := ts }
      let (rtypesRaw, a1) := dictPop attrs "types"
      let rtypes? := optNorm rtypesRaw
      let r1 ← match rtypes? with
        | none => pure st
        | some rv => do
            let pairs ← loadEnumlike (loc ++ ["types"]) rv
            let r ← tlBitfieldFold f data st (loc ++ ["types"]) name pairs []
            pure { r.2 with
              types := nsReplace typeName r.2.types name (.bitfield name r.1 none true) }
      let (renumRaw, a2) := dictPop a1 "enum"
      match optNorm renumRaw with
      | none => .ok (r1, a2)
      | some rv => do
          let re ← tlSubEnum f data r1 (loc ++ ["enum"]) name rv
          match rtypes? with
          | none => do
              let res2 ← bfFromEnum name re.1
              let td ← nsDeleteType re.2.types name
              let ta ← nsAdd typeName td res2
              .ok ({ re.2 with types := ta }, a2)
          | some _ => .ok (re.2, a2)

/-- Placement loop of `_load_bitfield`: resolve each referenced component,
check it has a span, and insert it at its bit. -/
def tlBitfieldFold (fuel : Nat) (data : List (String × RawValue)) (st : TLState)
    (loc : List String) (name : String) (pairs : List (String × Int))
    (acc : List SHVType) : Except PyErr (List SHVType × TLState) :=
  match fuel with
  | 0 => .error .fuelExhausted
  | f + 1 =>
      match pairs with
      | [] => .ok (acc, st)
      | (tpName, i) :: rest => do
          let r ← tlGetType f data st loc name (.str tpName)
          match ← typeSpan r.1 with
          | none =>
              .error (mkTreeErr loc ("Type " ++ tpName ++ " can't be included in bitfield"))
          | some _ => do
              let items ← bfSet acc none (.inl i) r.1
              tlBitfieldFold f data r.2 loc name rest items

/-- Embeds `_load_list`. -/
def tlLoadList (fuel : Nat) (data : List (String × RawValue)) (st : TLState)
    (loc : List String) (name : String) (attrs : List (String × RawValue)) :
    Except PyErr (TLState × List (String × RawValue)) :=
  match fuel with
  | 0 => .error .fuelExhausted
  | f + 1 => do
      let (minlenRaw, a1) := dictPop attrs "minlen"
      match (minlenRaw.getD (.int 0)).asInt with
      | none => .error (mkTreeErr (loc ++ ["minlen"]) "Expected integer")
      | some mn => do
          let (maxlenRaw, a2) := dictPop a1 "maxlen"
          let mx? ← match optNorm maxlenRaw with
            | none => pure none
            | some v =>
                match v.asInt with
                | none => .error (mkTreeErr (loc ++ ["maxlen"]) "Expected integer")
                | some i => pure (some i)
          let ts ← nsAdd typeName st.types (.listT name .any mn mx?)
          let st := { st with types := ts }
          let (allowedRaw, a3) := dictPop a2 "allowed"
          let r ← tlGetType f data st (loc ++ ["allowed"]) name (allowedRaw.getD .null)
          .ok ({ r.2 with
            types := nsReplace typeName r.2.types name (.listT name r.1 mn mx?) }, a3)

/-- Embeds `_load_tuple`. -/
def tlLoadTuple (fuel : Nat) (data : List (String × RawValue)) (st : TLState)
    (loc : List String) (name : String) (attrs : List (String × RawValue)) :
    Except PyErr (TLState × List (String × RawValue)) :=
  match fuel with
  | 0 => .error .fuelExhausted
  | f + 1 => do
      let ts ← nsAdd typeName st.types (.tuple name [] none)
      let st := { st with types := ts }
      let (itemsRaw, a1) := dictPop attrs "items"
      match rawAsSeq (itemsRaw.getD (.seq [])) with
      | none => .error (mkTreeErr (loc ++ ["items"]) "Invalid format")
      | some items => do
          let r ← tlTupleFold f data st loc name items 0 []
          let st := { r.2 with
            types := nsReplace typeName r.2.types name (.tuple name r.1 none) }
          let (enumRaw, a2) := dictPop a1 "enum"
          match optNorm enumRaw with
          | none => .ok (st, a2)
          | some ev => do
              let re ← tlSubEnum f data st (loc ++ ["enum"]) name ev
              .ok ({ re.2 with
                types :=
                  nsReplace typeName re.2.types name (.tuple name r.1 (some re.1)) }, a2)

/-- Item loop of `_load_tuple`. -/
def tlTupleFold (fuel : Nat) (data : List (String × RawValue)) (st : TLState)
    (loc : List String) (name : String) (items : List RawValue) (i : Nat)
    (acc : List SHVType) : Except PyErr (List SHVType × TLState) :=
  match fuel with
  | 0 => .error .fuelExhausted
  | f + 1 =>
      match items with
      | [] => .ok (acc, st)
      | v :: rest => do
          let r ← tlGetType f data st (loc ++ ["items[" ++ toString i ++ "]"])
            (name ++ toString i) v
          tlTupleFold f data r.2 loc name rest (i + 1) (acc ++ [r.1])

/-- Embeds `_load_map`. -/
def tlLoadMap (fuel : Nat) (data : List (String × RawValue)) (st : TLState)
    (loc : List String) (name : String) (attrs : List (String × RawValue)) :
    Except PyErr (TLState × List (String × RawValue)) :=
  match fuel with
  | 0 => .error .fuelExhausted
  | f + 1 => do
      let ts ← nsAdd typeName st.types (.mapT name [])
      let st := { st with types := ts }
      let (fieldsRaw, a1) := dictPop attrs "fields"
      match rawAsMapEntries (fieldsRaw.getD (.map [])) with
      | none => .error (mkTreeErr (loc ++ ["fields"]) "Expected mapping")
      | some fields => do
          let r ← tlMapFold f data st loc name fields []
          .ok ({ r.2 with
            types := nsReplace typeName r.2.types name (.mapT name r.1) }, a1)

/-- Field loop of `_load_map`: values must be type-name strings. -/
def tlMapFold (fuel : Nat) (data : List (String × RawValue)) (st : TLState)
    (loc : List String) (name : String) (fields : List (String × RawValue))
    (acc : List (String × SHVType)) :
    Except PyErr (List (String × SHVType) × TLState) :=
  match fuel with
  | 0 => .error .fuelExhausted
  | f + 1 =>
      match fields with
      | [] => .ok (acc, st)
      | (key, v) :: rest =>
          match v with
          | .str s => do
              let r ← tlGetType f data st (loc ++ ["fields"]) name (.str s)
              tlMapFold f data r.2 loc name rest (dictSetStr acc key r.1)
          | _ => .error (mkTreeErr (loc ++ ["fields", key]) "Expected string")

/-- Embeds `_load_imap`. -/
def tlLoadImap (fuel : Nat) (data : List (String × RawValue)) (st : TLState)
    (loc : List String) (name : String) (attrs : List (String × RawValue)) :
    Except PyErr (TLState × List (String × RawValue)) :=
  match fuel with
  | 0 => .error .fuelExhausted
  | f + 1 => do
      let ts ← nsAdd typeName st.types (.imap name none [])
      let st := { st with types := ts }
      let (enumRaw, a1) := dictPop attrs "enum"
      let r1 ← match optNorm enumRaw with
        | none => pure (none, st)
        | some ev => do
            let re ← tlSubEnum f data st (loc ++ ["enum"]) name ev
            pure (some re.1, { re.2 with
              types := nsReplace typeName re.2.types name (.imap name (some re.1) []) })
      let en? := r1.1
      let st := r1.2
      let (fieldsRaw, a2) := dictPop a1 "fields"
      let fv := fieldsRaw.getD (.seq [])
      match rawAsMapEntries fv with
      | some fields => do
          let r ← tlImapMapFold f data st loc name en? fields []
          .ok ({ r.2 with
            types := nsReplace typeName r.2.types name (.imap name en? r.1) }, a2)
      | none =>
          match rawAsSeq fv with
          | some items => do
              let r ← tlImapSeqFold f data st loc name en? items 0 0 []
              .ok ({ r.2 with
                types := nsReplace typeName r.2.types name (.imap name en? r.1) }, a2)
          | none => .error (mkTreeErr (loc ++ ["fields"]) "Invalid format")

/-- Mapping-shaped field loop of `_load_imap`: string keys are resolved
through the alias enum (a missing enum or name is a `KeyError`). -/
def tlImapMapFold (fuel : Nat) (data : List (String × RawValue)) (st : TLState)
    (loc : List String) (name : String) (en? : Option SHVType)
    (fields : List (String × RawValue)) (acc : List (Int × SHVType)) :
    Except PyErr (List (Int × SHVType) × TLState) :=
  match fuel with
  | 0 => .error .fuelExhausted
  | f + 1 =>
      match fields with
      | [] => .ok (acc, st)
      | (dkey, dvalue) :: rest => do
          let r ← tlGetType f data st (loc ++ ["fields"]) (name ++ dkey) dvalue
          match en? with
          | none => .error (.keyError "Can't use name unless you set enum attribute.")
          | some (.enum _ vals) =>
              match enumLookup vals dkey with
              | none => .error (.keyError dkey)
              | some k =>
                  tlImapMapFold f data r.2 loc name en? rest (dictSetInt acc k r.1)
          | some _ => .error (.unmodelled "imap enum attribute is not an enum")

/-- Sequence-shaped field loop of `_load_imap`: strings claim consecutive
keys, inline mappings give explicit keys (whose value also resets the
counter; a non-integer there is Python's `TypeError` on `value + 1`). -/
def tlImapSeqFold (fuel : Nat) (data : List (String × RawValue)) (st : TLState)
    (loc : List String) (name : String) (en? : Option SHVType)
    (items : List RawValue) (i : Nat) (nexti : Int)
    (acc : List (Int × SHVType)) : Except PyErr (List (Int × SHVType) × TLState) :=
  match fuel with
  | 0 => .error .fuelExhausted
  | f + 1 =>
      match items with
      | [] => .ok (acc, st)
      | .str s :: rest => do
          let r ← tlGetType f data st (loc ++ ["fields"]) (name ++ toString nexti) (.str s)
          tlImapSeqFold f data r.2 loc name en? rest (i + 1) (nexti + 1)
            (dictSetInt acc nexti r.1)
      | .map entries :: rest => do
          let r ← tlImapEntryFold f data st loc name en? i entries nexti acc
          tlImapSeqFold f data r.2.2 loc name en? rest (i + 1) r.2.1 r.1
      | _ :: _ => .error (mkTreeErr (loc ++ ["fields"]) "Invalid fields format")

/-- Inner loop over one inline mapping of the sequence-shaped imap fields. -/
def tlImapEntryFold (fuel : Nat) (data : List (String × RawValue)) (st : TLState)
    (loc : List String) (name : String) (en? : Option SHVType) (i : Nat)
    (entries : List (String × RawValue)) (nexti : Int)
    (acc : List (Int × SHVType)) :
    Except PyErr (List (Int × SHVType) × (Int × TLState)) :=
  match fuel with
  | 0 => .error .fuelExhausted
  | f + 1 =>
      match entries with
      | [] => .ok (acc, (nexti, st))
      | (key, value) :: rest => do
          let nmSuffix := match value with
            | .int v => toString v
            | .str s => s
            | .bool b => toString (if b then 1 else 0)
            | _ => ""
          let r ← tlGetType f data st
            (loc ++ ["fields[" ++ toString i ++ "]", key]) (name ++ nmSuffix) (.str key)
          let acc1 ← match value with
            | .int v => pure (dictSetInt acc v r.1)
            | .bool b => pure (dictSetInt acc (if b then 1 else 0) r.1)
            | .str s =>
                match en? with
                | none =>
                    .error (.keyError "Can't use name unless you set enum attribute.")
                | some (.enum _ vals) =>
                    match enumLookup vals s with
                    | none => .error (.keyError s)
                    | some k => pure (dictSetInt acc k r.1)
                | some _ => .error (.unmodelled "imap enum attribute is not an enum")
            | _ => .error (.unmodelled "imap field key of unsupported type")
          match value.asInt with
          | some v => tlImapEntryFold f data r.2 loc name en? i rest (v + 1) acc1
          | none => .error (.typeError "unsupported operand type for +")

end

/-- Embeds `load.py`'s module-level `_get_type`: `None` means `shvNull`,
then builtins, then the loaded custom types, otherwise a structural error. -/
def getTypeRef (loc : List String) (types : List SHVType) (nm : Option RawValue) :
    Except PyErr SHVType :=
  match nm with
  | none => .ok .null
  | some (.str s) =>
      if nsContains typeName shvBuiltins s then nsGet typeName shvBuiltins s
      else if nsContains typeName types s then nsGet typeName types s
      else .error (mkTreeErr loc ("Invalid type reference name: " ++ s))
  | some _ => .error (mkTreeErr loc "Invalid type reference name")

/-- Accumulation of the method flag bits from the document's flag names
(case-insensitive, must all be recognized). -/
def loadMethodFlags (loc : List String) (dflags : Option RawValue) :
    Except PyErr Nat :=
  match dflags with
  | none => .ok 0
  | some v =>
      match rawIter v with
      | none => .error (.unmodelled "flags value is not iterable")
      | some items =>
          let rec go : List RawValue → Nat → Except PyErr Nat
            | [], acc => .ok acc
            | .str s :: rest, acc =>
                let up := s.toUpper
                match (rpcFlagTable.find? (fun kv => kv.1 == up)).map Prod.snd with
                | none => .error (mkTreeErr loc ("Invalid flag: " ++ up))
                | some b => go rest (acc ||| b)
            | _ :: _, _ => .error (.unmodelled "flag name is not a string")
          go items 0

/-- Coercion `dict(x) if x is not None else {}` applied to node and method
bodies. -/
def rawAsBody : RawValue → Except PyErr (List (String × RawValue))
  | .map e => .ok e
  | .null => .ok []
  | _ => .error (.unmodelled "body is not a mapping")

/-- Embeds one method entry of `_load_methods`. -/
def loadMethodEntry (loc : List String) (types : List SHVType) (name : String)
    (dmethodRaw : RawValue) : Except PyErr SHVMethod := do
  let dmethod ← rawAsBody dmethodRaw
  let (paramRaw, d1) := dictPop dmethod "param"
  let param ← getTypeRef (loc ++ [name]) types (optNorm paramRaw)
  let (resultRaw, d2) := dictPop d1 "result"
  let result ← getTypeRef (loc ++ [name]) types (optNorm resultRaw)
  let (accessRaw, d3) := dictPop d2 "access"
  let access := accessRaw.getD (.str "cmd")
  let (descrRaw, d4) := dictPop d3 "description"
  let descr := descrRaw.getD (.str "")
  let (flagsRaw, d5) := dictPop d4 "flags"
  let flags ← loadMethodFlags (loc ++ [name, "flags"]) (optNorm flagsRaw)
  if d5.isEmpty then
    mkSHVMethod name param result flags access descr
  else
    .error (mkTreeErr (loc ++ [name])
      ("Unsupported keys: " ++ String.intercalate ", " (d5.map Prod.fst)))

/-- Embeds `_load_methods`. -/
def loadMethods (loc : List String) (data : RawValue) (types : List SHVType) :
    Except PyErr (List SHVMethod) := do
  match rawAsMapEntries data with
  | none => .error (mkTreeErr loc "Invalid format")
  | some entries =>
      let rec go : List (String × RawValue) → List SHVMethod →
          Except PyErr (List SHVMethod)
        | [], acc => .ok acc
        | (name, dm) :: rest, acc => do
            let m ← loadMethodEntry loc types name dm
            let acc1 ← nsAdd SHVMethod.name acc m
            go rest acc1
      go entries []

mutual

/-- Embeds `load_nodes` (the source rebinds `location = ["nodes"]` on every
recursive call, so nested locations never accumulate). -/
def loadNodes (fuel : Nat) (data : RawValue) (types : List SHVType) :
    Except PyErr (List SHVNode) :=
  match fuel with
  | 0 => .error .fuelExhausted
  | f + 1 =>
      match rawAsMapEntries data with
      | none => .error (mkTreeErr ["nodes"] "Invalid format")
      | some entries => loadNodesFold f entries types []

/-- Entry loop of `load_nodes`: children, methods, description, then the
`property` shorthand expansion, then the leftover-keys check. -/
def loadNodesFold (fuel : Nat) (entries : List (String × RawValue))
    (types : List SHVType) (acc : List SHVNode) : Except PyErr (List SHVNode) :=
  match fuel with
  | 0 => .error .fuelExhausted
  | f + 1 =>
      match entries with
      | [] => .ok acc
      | (name, dnodeRaw) :: rest => do
          let dnode ← rawAsBody dnodeRaw
          let (dnodesRaw, p1) := dictPop dnode "nodes"
          let children ← loadNodes f ((optNorm dnodesRaw).getD (.map [])) types
          let (dmethodsRaw, p2) := dictPop p1 "methods"
          let methods ← loadMethods ["nodes", name, "methods"]
            ((optNorm dmethodsRaw).getD (.map [])) types
          let (descrRaw, p3) := dictPop p2 "description"
          let descr0 := descrRaw.getD (.str "")
          let descr := if descr0.truthy then descr0 else .str ""
          let (propRaw, p4) := dictPop p3 "property"
          let r ← match optNorm propRaw with
            | none => pure (SHVNode.mk name children methods descr, p4)
            | some prop => do
                let (roRaw, p5) := dictPop p4 "readonly"
                let readonly := (roRaw.getD (.bool false)).truthy
                let (sigRaw, p6) := dictPop p5 "signal"
                let signal := sigRaw.getD (.bool !readonly)
                let tp ← getTypeRef ["nodes", name, "property"] types (some prop)
                let ms ← makeProperty methods tp readonly signal
                pure (SHVNode.mk name children ms descr, p6)
          if r.2.isEmpty then do
            let acc1 ← nsAdd SHVNode.name acc r.1
            loadNodesFold f rest types acc1
          else
            .error (mkTreeErr ["nodes", name]
              ("Unsupported keys: " ++ String.intercalate ", " (r.2.map Prod.fst)))

end

mutual

/-- Structural weight of a document value, for fuel computation. -/
def rawWeight : RawValue → Nat
  | .seq l => 1 + rawWeightList l
  | .map e => 1 + rawWeightSList e
  | .imapv e => 1 + rawWeightIList e
  | .str s => 1 + s.length
  | _ => 1

/-- Weight of a value sequence. -/
def rawWeightList : List RawValue → Nat
  | [] => 0
  | v :: rest => 1 + rawWeight v + rawWeightList rest

/-- Weight of string-keyed entries. -/
def rawWeightSList : List (String × RawValue) → Nat
  | [] => 0
  | (k, v) :: rest => 1 + k.length + rawWeight v + rawWeightSList rest

/-- Weight of integer-keyed entries. -/
def rawWeightIList : List (Int × RawValue) → Nat
  | [] => 0
  | (_, v) :: rest => 1 + rawWeight v + rawWeightIList rest

end

/-- Fuel bound for the loader recursions; any bound that lets a concrete
load finish is adequate (the worklist always terminates in Python, and the
universally quantified theorems below hypothesize a successful load). -/
def loadFuel (v : RawValue) : Nat :=
  (rawWeight v + 16) * (rawWeight v + 16)

/-- Embeds `load_types`. -/
def loadTypes (data : RawValue) : Except PyErr (List SHVType) :=
  match rawAsMapEntries data with
  | none => .error (mkTreeErr ["types"] "Invalid format")
  | some entries => tlLoadAll (loadFuel data) entries ⟨[], entries.map Prod.fst⟩

/-- Embeds `load_raw`: types first, then nodes, then the leftover-keys
check, producing the tree root. -/
def loadRaw (data : RawValue) : Except PyErr SHVTree :=
  match rawAsMapEntries data with
  | none => .error (mkTreeErr [] "Invalid format")
  | some entries => do
      let (typesRaw, e1) := dictPop entries "types"
      let types ← loadTypes (typesRaw.getD (.map []))
      let (nodesRaw, e2) := dictPop e1 "nodes"
      let nodes ← loadNodes (loadFuel data) (nodesRaw.getD (.map [])) types
      if e2.isEmpty then .ok ⟨nodes, types⟩
      else
        .error (mkTreeErr []
          ("Unsupported keys: " ++ String.intercalate ", " (e2.map Prod.fst)))

/-- Is the bit at index `j` inside the span of some non-hole component of
the bitfield, when the components start at accumulated offset `i`? -/
def bfCovered : List SHVType → Nat → Nat → Bool
  | [], _, _ => false
  | tp :: rest, i, j =>
      if isNullT tp then bfCovered rest (i + 1) j
      else
        match typeSpan tp with
        | .ok (some s) =>
            (decide (i ≤ j) && decide (j < i + s)) || bfCovered rest (i + s) j
        | _ => false

/-- Does a non-hole component accept the bit pattern `v` (the check
`interpret` performs on it)?  Components outside the bitfield-compatible
set accept nothing. -/
def compOk : SHVType → Nat → Bool
  | .bool, _ => true
  | .enum _ vals, v => enumValidateInt vals (v : Int)
  | .int t, v => t.validateInt (v : Int) == .ok true
  | _, _ => false

/-- Every component has a defined span, and every non-hole component
individually accepts the bits `value` assigns to it — the hypothesis of the
round-trip claim. -/
def bfWellFormed : List SHVType → Nat → Nat → Bool
  | [], _, _ => true
  | tp :: rest, i, value =>
      if isNullT tp then bfWellFormed rest (i + 1) value
      else
        match typeSpan tp with
        | .ok (some s) =>
            compOk tp ((value >>> i) &&& (2 ^ s - 1)) && bfWellFormed rest (i + s) value
        | _ => false

/-- Every component has a defined span (holes included). -/
def bfSpansDef : List SHVType → Bool
  | [] => true
  | tp :: rest =>
      (match typeSpan tp with | .ok (some _) => true | _ => false) && bfSpansDef rest

/-- Every component has a defined positive span. -/
def bfSpansPos : List SHVType → Bool
  | [] => true
  | tp :: rest =>
      (match typeSpan tp with | .ok (some s) => decide (0 < s) | _ => false) &&
        bfSpansPos rest

/-- Span of a component as `set` uses it for advancing the offset
(`type_span(item) or 0`), meaningful under `bfSpansDef`. -/
def typeSpanD (tp : SHVType) : Nat :=
  match typeSpan tp with
  | .ok (some s) => s
  | _ => 0

/-- Does some previously placed non-hole component start exactly at `bit` or
strictly inside the inserted span `(bit, bit + valsiz)`?  This is the
condition on which `set` raises "Replacement is not allowed". -/
def bfStartHit : List SHVType → Int → Int → Nat → Bool
  | [], _, _, _ => false
  | item :: rest, offset, bit, valsiz =>
      (!isNullT item &&
        (offset == bit || (decide (bit < offset) && decide (offset < bit + (valsiz : Int))))) ||
      bfStartHit rest (offset + (typeSpanD item : Int)) bit valsiz

/-- Is the span of every previously placed non-hole component disjoint from
the inserted span `[bit, bit + valsiz)`? -/
def bfSpanFree : List SHVType → Int → Int → Nat → Bool
  | [], _, _, _ => true
  | item :: rest, offset, bit, valsiz =>
      if isNullT item then bfSpanFree rest (offset + 1) bit valsiz
      else
        (decide (offset + (typeSpanD item : Int) ≤ bit) ||
          decide (bit + (valsiz : Int) ≤ offset)) &&
        bfSpanFree rest (offset + (typeSpanD item : Int)) bit valsiz

/-- Is a decimal bound present and NaN (the one value on which decimal
equality is not reflexive)? -/
def optDecNan : Option Dec → Bool
  | some .nan => true
  | _ => false

mutual

/-- No NaN decimal occurs in the value (`NaN == NaN` is false, breaking
reflexivity of value equality). -/
def rawClean : RawValue → Bool
  | .dec d => !(d == Dec.nan)
  | .seq l => rawCleanList l
  | .map e => rawCleanSList e
  | .imapv e => rawCleanIList e
  | _ => true

/-- Cleanliness of a value sequence. -/
def rawCleanList : List RawValue → Bool
  | [] => true
  | v :: rest => rawClean v && rawCleanList rest

/-- Cleanliness of string-keyed entries. -/
def rawCleanSList : List (String × RawValue) → Bool
  | [] => true
  | (_, v) :: rest => rawClean v && rawCleanSList rest

/-- Cleanliness of integer-keyed entries. -/
def rawCleanIList : List (Int × RawValue) → Bool
  | [] => true
  | (_, v) :: rest => rawClean v && rawCleanIList rest

end

/-- Is the optional alias enum of a bitfield or tuple either absent or an
actual enum (the shape its equality comparison is reflexive on)? -/
def optEnumClean : Option SHVType → Bool
  | none => true
  | some (.enum _ _) => true
  | some _ => false

mutual

/-- No Blob type and no NaN decimal bound occurs anywhere in the type — the
conditions under which the structural equality of the source is reflexive
(`SHVTypeBlob.__eq__` matches against `SHVTypeString`, so a Blob is never
equal to an equally-constrained Blob; `NaN == NaN` is false). -/
def typeClean : SHVType → Bool
  | .blob _ _ _ => false
  | .decimal _ mn mx => !optDecNan mn && !optDecNan mx
  | .alias _ tp => typeClean tp
  | .listT _ al _ _ => typeClean al
  | .bitfield _ items en _ => typeCleanList items && optEnumClean en
  | .tuple _ items en => typeCleanList items && optEnumClean en
  | .oneOf _ ts => typeCleanList ts
  | .mapT _ fs => typeCleanSList fs
  | .imap _ _ fs => typeCleanIList fs
  | .constant _ v => rawClean v
  | _ => true

/-- Cleanliness of a component list. -/
def typeCleanList : List SHVType → Bool
  | [] => true
  | t :: rest => typeClean t && typeCleanList rest

/-- Cleanliness of string-keyed fields. -/
def typeCleanSList : List (String × SHVType) → Bool
  | [] => true
  | (_, t) :: rest => typeClean t && typeCleanSList rest

/-- Cleanliness of integer-keyed fields. -/
def typeCleanIList : List (Int × SHVType) → Bool
  | [] => true
  | (_, t) :: rest => typeClean t && typeCleanIList rest

end

/-- Cleanliness of a method: its parameter, result and description support
reflexive comparison. -/
def methodClean (m : SHVMethod) : Bool :=
  typeClean m.param && typeClean m.result && rawClean m.description

/-- Cleanliness of a method collection. -/
def methodListClean : List SHVMethod → Bool
  | [] => true
  | m :: rest => methodClean m && methodListClean rest

mutual

/-- Cleanliness of a node: its methods and description and all children
support reflexive comparison. -/
def nodeClean : SHVNode → Bool
  | .mk _ ns ms d => nodeListClean ns && methodListClean ms && rawClean d

/-- Cleanliness of a node collection. -/
def nodeListClean : List SHVNode → Bool
  | [] => true
  | n :: rest => nodeClean n && nodeListClean rest

end

/-- Cleanliness of a whole tree: no Blob type and no NaN decimal occurs in
its custom types or in any node's methods or description. -/
def treeClean (t : SHVTree) : Bool :=
  nodeListClean t.nodes && t.types.all typeClean

/-- C1 (counterexample): the claim's value for `UInt16` is wrong — the code
computes 4 chainpack bytes for `UInt16`, not 3 (and 6 for `UInt32`, not 5):
`bits = 65535.bit_length() - 1 = 15` falls into the `bits <= 21` tier. -/
theorem chainpackBytes_uint16_ne_three :
    shvUInt16.chainpackBytes = some 4 ∧ shvUInt16.chainpackBytes ≠ some 3 := by
  decide

/-- C1 (amended): the chainpack byte bounds of the builtin unsigned integer
types are UInt8 → 2, UInt16 → 4, UInt32 → 6, UInt64 → 10, and the
unconstrained `Int` and `UInt` have no bound. -/
theorem chainpackBytes_builtin_uints :
    shvUInt8.chainpackBytes = some 2 ∧
    shvUInt16.chainpackBytes = some 4 ∧
    shvUInt32.chainpackBytes = some 6 ∧
    shvUInt64.chainpackBytes = some 10 ∧
    shvInt.chainpackBytes = none ∧
    shvUInt.chainpackBytes = none := by
  decide

/-- C3 (code bug): `Tree.get_type` resolves builtins first and custom types
second as claimed, but on an unknown name it raises the `KeyError` of
`NamedSet.__getitem__` instead of returning the `None` its own docstring
promises. -/
theorem getType_unknown_name_raises :
    treeGetType ⟨[], []⟩ "nosuch" = .error (.keyError "No item for key: nosuch") ∧
    treeGetType ⟨[], []⟩ "UInt8" = .ok (.int shvUInt8) ∧
    treeGetType ⟨[], [.enum "E" [("a", 1)]]⟩ "E" = .ok (.enum "E" [("a", 1)]) :=
  ⟨rfl, rfl, rfl⟩

/-- C6 (code bug): `SHVTypeBlob.__eq__` tests `isinstance(value,
SHVTypeString)`, so two Blob instances with equal length bounds compare
unequal — while a Blob compares equal to a String with the same bounds. -/
theorem blob_eq_not_reflexive :
    typeEq (.blob "foo" (some 1) (some 2)) (.blob "foo" (some 1) (some 2)) = false ∧
    typeEq (.blob "foo" (some 1) (some 2)) (.string "bar" (some 1) (some 2) none) = true :=
  ⟨rfl, rfl⟩

/-- C7 (code bug): constructing an Int type with `multipleOf = 0` is not
rejected — the constructor stores the zero, and `validate` on any integer
then raises `ZeroDivisionError` instead of returning a boolean. -/
theorem multiple_of_zero_accepted :
    mkSHVTypeInt "foo" none none (some 0) none =
      .ok ⟨"foo", none, none, some 0, false⟩ ∧
    SHVTypeInt.validateInt ⟨"foo", none, none, some 0, false⟩ 5 =
      .error .zeroDivisionError :=
  ⟨rfl, rfl⟩

/-- C8 (counterexample): the claim's document does not load — the bare
`{"type": "Int"}` declaration reaches `SHVTypeInt.__new__` with no
constraints and a non-reserved name, which raises
`ValueError("Please use shvInt instead")` and aborts the load. -/
theorem forward_reference_bare_int_fails :
    loadTypes (.map [("A", .str "B"), ("B", .map [("type", .str "Int")])]) =
      .error (.valueError "Please use shvInt instead") := rfl

/-- C8 (amended): with any constraint on `B` (here `minimum: 1`), the
forward reference resolves: `A` declared before `B` loads as an Alias whose
underlying type is the constrained Int `B`. -/
theorem forward_reference_resolves :
    loadTypes (.map [("A", .str "B"),
        ("B", .map [("type", .str "Int"), ("minimum", .int 1)])]) =
      .ok [.alias "A" (.int ⟨"B", some 1, none, none, true⟩),
        .int ⟨"B", some 1, none, none, true⟩] := rfl

/-- C10: for a value the setter admits, assigning to the `minimum` property
leaves the stored minimum unchanged and overwrites the stored maximum (the
setter body assigns `self._maximum = value`), and assigning to the
`maximum` property writes the same field. -/
theorem minimum_setter_writes_maximum (t : SHVTypeInt) (v : Int)
    (h : ¬(t.unsigned = true ∧ v < 0)) :
    t.setMinimum (some v) = .ok { t with maximum := some v } ∧
    (t.setMinimum (some v)).map SHVTypeInt.minimum = .ok t.minimum ∧
    (t.setMinimum (some v)).map SHVTypeInt.maximum = .ok (some v) ∧
    t.setMaximum (some v) = .ok { t with maximum := some v } := by
  have hc : (t.unsigned && optNeg (some v)) = false := by
    simp only [optNeg, Bool.and_eq_false_iff]
    by_cases hu : t.unsigned = true
    · right
      simp only [decide_eq_false_iff_not, not_lt]
      by_contra hv
      exact h ⟨hu, by omega⟩
    · left
      simpa using hu
  refine ⟨?_, ?_, ?_, ?_⟩ <;>
    simp [SHVTypeInt.setMinimum, SHVTypeInt.setMaximum, hc, Except.map]

/-- C10 (witness): instantiation at `shvInt8` and the value 5. -/
theorem minimum_setter_writes_maximum_witness :
    shvInt8.setMinimum (some 5) = .ok { shvInt8 with maximum := some 5 } ∧
    (shvInt8.setMinimum (some 5)).map SHVTypeInt.minimum = .ok shvInt8.minimum ∧
    (shvInt8.setMinimum (some 5)).map SHVTypeInt.maximum = .ok (some 5) ∧
    shvInt8.setMaximum (some 5) = .ok { shvInt8 with maximum := some 5 } :=
  minimum_setter_writes_maximum shvInt8 5 (by decide)

/-- C9: on a node with no methods, the property shorthand produces exactly
`get`/`set`/`chng` when writable with default signalling, exactly `get`
when read-only, and exactly `get`/`chng` when read-only with an explicit
signal. -/
theorem make_property_method_sets (n : SHVNode) (dtype : SHVType)
    (h : n.methods = []) :
    (makeProperty n.methods dtype false .null).map (fun l => l.map SHVMethod.name) =
      .ok ["get", "set", "chng"] ∧
    (makeProperty n.methods dtype true .null).map (fun l => l.map SHVMethod.name) =
      .ok ["get"] ∧
    (makeProperty n.methods dtype true (.bool true)).map (fun l => l.map SHVMethod.name) =
      .ok ["get", "chng"] := by
  rw [h]
  exact ⟨rfl, rfl, rfl⟩

/-- C9 (witness): instantiation at a fresh node and the Bool type. -/
theorem make_property_method_sets_witness :
    (makeProperty (SHVNode.mk "x" [] [] (.str "")).methods .bool false .null).map
      (fun l => l.map SHVMethod.name) = .ok ["get", "set", "chng"] ∧
    (makeProperty (SHVNode.mk "x" [] [] (.str "")).methods .bool true .null).map
      (fun l => l.map SHVMethod.name) = .ok ["get"] ∧
    (makeProperty (SHVNode.mk "x" [] [] (.str "")).methods .bool true (.bool true)).map
      (fun l => l.map SHVMethod.name) = .ok ["get", "chng"] :=
  make_property_method_sets (SHVNode.mk "x" [] [] (.str "")) .bool rfl

/-- Success of a bind whose continuation cannot fail. -/
theorem exceptBindPureIsOk {α β : Type} (x : Except PyErr α) (g : α → β) :
    (x >>= fun a => Except.ok (g a)).isOk = x.isOk := by
  cases x <;> rfl

/-- Unpacking of `bfSpansDef` at a cons. -/
theorem spansDef_cons {item : SHVType} {rest : List SHVType}
    (h : bfSpansDef (item :: rest) = true) :
    (∃ s, typeSpan item = .ok (some s) ∧ typeSpanD item = s) ∧ bfSpansDef rest = true := by
  rw [bfSpansDef] at h
  rcases hsp : typeSpan item with e | o
  · rw [hsp] at h; simp at h
  · cases o with
    | none => rw [hsp] at h; simp at h
    | some s =>
        rw [hsp] at h
        simp at h
        exact ⟨⟨s, rfl, by simp [typeSpanD, hsp]⟩, h⟩

/-- Characterization of when the rebuild loop of `set` succeeds: exactly
when no non-hole component starts at the requested bit or strictly inside
the inserted span. -/
theorem bfSetAux_isOk_iff (value : SHVType) (valsiz : Nat) :
    ∀ (comps : List SHVType) (offset bit : Int),
      bfSpansDef comps = true →
      (bfSetAux bit valsiz value comps offset).isOk = !bfStartHit comps offset bit valsiz
  | [], offset, bit, _ => by
      rw [bfSetAux, bfStartHit]
      split <;> rfl
  | item :: rest, offset, bit, h => by
      obtain ⟨⟨s, hsp, hspd⟩, hrest⟩ := spansDef_cons h
      rw [bfSetAux, bfStartHit, hspd]
      by_cases hb : (offset == bit) = true
      · simp only [hb, if_true]
        by_cases hn : isNullT item = true
        · simp only [hn, if_true, Bool.not_true, Bool.false_and, Bool.false_or]
          show (typeSpan item >>= fun sp =>
            bfSetAux bit valsiz value rest (offset + (sp.getD 0 : Nat)) >>= fun l =>
              Except.ok (value :: l)).isOk = _
          rw [hsp]
          show (bfSetAux bit valsiz value rest (offset + (s : Nat)) >>= fun l =>
            Except.ok (value :: l)).isOk = _
          rw [exceptBindPureIsOk]
          exact bfSetAux_isOk_iff value valsiz rest (offset + (s : Nat)) bit hrest
        · simp only [hn, if_false]
          simp only [Bool.not_eq_true] at hn
          simp [hn, hb, Except.isOk, Except.toBool]
      · simp only [hb, if_false]
        by_cases hw : (decide (bit < offset) && decide (offset < bit + (valsiz : Int))) = true
        · simp only [hw, if_true]
          by_cases hn : isNullT item = true
          · simp only [hn, if_true, Bool.not_true, Bool.false_and, Bool.false_or]
            show (typeSpan item >>= fun sp =>
              bfSetAux bit valsiz value rest (offset + (sp.getD 0 : Nat))).isOk = _
            rw [hsp]
            show (bfSetAux bit valsiz value rest (offset + (s : Nat))).isOk = _
            exact bfSetAux_isOk_iff value valsiz rest (offset + (s : Nat)) bit hrest
          · simp only [Bool.not_eq_true] at hn
            simp [hn, hb, hw, Except.isOk, Except.toBool]
        · simp only [hw, if_false]
          show (typeSpan item >>= fun sp =>
            bfSetAux bit valsiz value rest (offset + (sp.getD 0 : Nat)) >>= fun l =>
              Except.ok (item :: l)).isOk = _
          rw [hsp]
          show (bfSetAux bit valsiz value rest (offset + (s : Nat)) >>= fun l =>
            Except.ok (item :: l)).isOk = _
          rw [exceptBindPureIsOk]
          rw [bfSetAux_isOk_iff value valsiz rest (offset + (s : Nat)) bit hrest]
          simp [hb, hw]

/-- Positive spans are in particular defined. -/
theorem bfSpansPos_spansDef :
    ∀ comps : List SHVType, bfSpansPos comps = true → bfSpansDef comps = true
  | [], _ => rfl
  | item :: rest, h => by
      rw [bfSpansPos] at h
      rw [bfSpansDef]
      rcases hsp : typeSpan item with e | o
      · rw [hsp] at h; simp at h
      · cases o with
        | none => rw [hsp] at h; simp at h
        | some s =>
            rw [hsp] at h
            simp only [Bool.and_eq_true] at h
            simp [bfSpansPos_spansDef rest h.2]

/-- Span of the Null hole. -/
theorem typeSpan_null : typeSpan SHVType.null = .ok (some 1) := rfl

/-- Defined spans are preserved by concatenation. -/
theorem bfSpansDef_append :
    ∀ (a b : List SHVType), bfSpansDef a = true → bfSpansDef b = true →
      bfSpansDef (a ++ b) = true
  | [], b, _, hb => hb
  | item :: rest, b, ha, hb => by
      rw [List.cons_append]
      simp only [bfSpansDef] at ha ⊢
      rcases hsp : typeSpan item with e | o
      · rw [hsp] at ha; simp at ha
      · cases o with
        | none => rw [hsp] at ha; simp at ha
        | some s =>
            simp only [Bool.and_eq_true] at ha
            simp [bfSpansDef_append rest b ha.2 hb]

/-- Hole padding has defined spans. -/
theorem bfSpansDef_replicate (k : Nat) :
    bfSpansDef (List.replicate k SHVType.null) = true := by
  induction k with
  | zero => rfl
  | succ n ih =>
      rw [List.replicate_succ]
      simp only [bfSpansDef, typeSpan_null]
      simpa using ih

/-- The rebuild loop of `set` outputs only components of the input, the
inserted component, and holes, so defined spans are preserved. -/
theorem bfSetAux_output_spansDef (value : SHVType) (valsiz : Nat)
    (hv : typeSpan value = .ok (some valsiz)) :
    ∀ (comps : List SHVType) (offset bit : Int) (l : List SHVType),
      bfSpansDef comps = true →
      bfSetAux bit valsiz value comps offset = .ok l →
      bfSpansDef l = true
  | [], offset, bit, l, _, hres => by
      rw [bfSetAux] at hres
      split at hres
      · cases hres
        refine bfSpansDef_append _ _ (bfSpansDef_replicate _) ?_
        rw [bfSpansDef, hv]
        rfl
      · cases hres; rfl
  | item :: rest, offset, bit, l, h, hres => by
      obtain ⟨⟨s, hsp, hspd⟩, hrest⟩ := spansDef_cons h
      rw [bfSetAux] at hres
      by_cases hb : (offset == bit) = true
      · rw [if_pos hb] at hres
        by_cases hn : isNullT item = true
        · rw [if_pos hn] at hres
          rw [show (do
              let sp ← typeSpan item
              let l ← bfSetAux bit valsiz value rest (offset + (sp.getD 0 : Nat))
              Except.ok (value :: l) : Except PyErr (List SHVType)) =
            (bfSetAux bit valsiz value rest (offset + (s : Nat)) >>= fun l =>
              Except.ok (value :: l)) from by rw [hsp]; rfl] at hres
          rcases hrec : bfSetAux bit valsiz value rest (offset + (s : Nat)) with e | l0
          · rw [hrec] at hres; cases hres
          · rw [hrec] at hres
            cases hres
            rw [bfSpansDef, hv]
            simpa using bfSetAux_output_spansDef value valsiz hv rest _ bit l0 hrest hrec
        · rw [if_neg hn] at hres; cases hres
      · rw [if_neg hb] at hres
        by_cases hw : (decide (bit < offset) && decide (offset < bit + (valsiz : Int))) = true
        · rw [if_pos hw] at hres
          by_cases hn : isNullT item = true
          · rw [if_pos hn] at hres
            rw [show (do
                let sp ← typeSpan item
                bfSetAux bit valsiz value rest (offset + (sp.getD 0 : Nat)) :
                  Except PyErr (List SHVType)) =
              bfSetAux bit valsiz value rest (offset + (s : Nat)) from by rw [hsp]; rfl] at hres
            exact bfSetAux_output_spansDef value valsiz hv rest _ bit l hrest hres
          · rw [if_neg hn] at hres; cases hres
        · rw [if_neg hw] at hres
          rw [show (do
              let sp ← typeSpan item
              let l ← bfSetAux bit valsiz value rest (offset + (sp.getD 0 : Nat))
              Except.ok (item :: l) : Except PyErr (List SHVType)) =
            (bfSetAux bit valsiz value rest (offset + (s : Nat)) >>= fun l =>
              Except.ok (item :: l)) from by rw [hsp]; rfl] at hres
          rcases hrec : bfSetAux bit valsiz value rest (offset + (s : Nat)) with e | l0
          · rw [hrec] at hres; cases hres
          · rw [hrec] at hres
            cases hres
            rw [bfSpansDef, hsp]
            simpa using bfSetAux_output_spansDef value valsiz hv rest _ bit l0 hrest hrec

/-- With defined spans the `types` walk cannot fail. -/
theorem bfTypesAux_ok_of_spansDef :
    ∀ (l : List SHVType) (off : Nat), bfSpansDef l = true →
      ∃ lst, bfTypesAux l off = .ok lst
  | [], off, _ => ⟨[], rfl⟩
  | item :: rest, off, h => by
      obtain ⟨⟨s, hsp, _⟩, hrest⟩ := spansDef_cons h
      rw [bfTypesAux]
      by_cases hn : isNullT item = true
      · rw [if_pos hn]
        exact bfTypesAux_ok_of_spansDef rest (off + 1) hrest
      · rw [if_neg hn]
        obtain ⟨lst, hlst⟩ := bfTypesAux_ok_of_spansDef rest (off + s) hrest
        refine ⟨(item, off, s) :: lst, ?_⟩
        rw [show (do
            match ← typeSpan item with
            | none => .error .assertionError
            | some s => (bfTypesAux rest (off + s)).map (fun l => (item, off, s) :: l) :
              Except PyErr (List (SHVType × Nat × Nat))) =
          (bfTypesAux rest (off + s)).map (fun l => (item, off, s) :: l) from by
            rw [hsp]; rfl]
        rw [hlst]
        rfl

/-- Hole padding shifts the `types` walk without contributing components. -/
theorem bfTypesAux_replicate :
    ∀ (k : Nat) (l : List SHVType) (off : Nat),
      bfTypesAux (List.replicate k SHVType.null ++ l) off = bfTypesAux l (off + k)
  | 0, l, off => by simp
  | k + 1, l, off => by
      rw [List.replicate_succ, List.cons_append, bfTypesAux]
      rw [if_pos (show isNullT SHVType.null = true from rfl)]
      rw [bfTypesAux_replicate k l (off + 1)]
      ring_nf

/-- A span-disjoint insertion never trips the replacement error (spans must
be positive: a zero-span component occupies no bit yet still blocks its
start position). -/
theorem spanFree_no_startHit (valsiz : Nat) (hpos : 0 < valsiz) :
    ∀ (comps : List SHVType) (offset bit : Int),
      bfSpansPos comps = true →
      bfSpanFree comps offset bit valsiz = true →
      bfStartHit comps offset bit valsiz = false
  | [], _, _, _, _ => rfl
  | item :: rest, offset, bit, hp, hf => by
      rw [bfSpansPos] at hp
      rcases hsp : typeSpan item with e | o
      · rw [hsp] at hp; simp at hp
      · cases o with
        | none => rw [hsp] at hp; simp at hp
        | some s =>
            rw [hsp] at hp
            simp only [Bool.and_eq_true, decide_eq_true_eq] at hp
            obtain ⟨hspos, hrest⟩ := hp
            have hspd : typeSpanD item = s := by simp [typeSpanD, hsp]
            rw [bfSpanFree] at hf
            rw [bfStartHit, hspd]
            by_cases hn : isNullT item = true
            · rw [if_pos hn] at hf
              have h1 : typeSpanD item = 1 := by
                have : item = SHVType.null := by
                  cases item <;> simp [isNullT] at hn ⊢
                rw [this]
                rfl
              rw [hspd] at h1
              subst h1
              simp only [hn, Bool.not_true, Bool.false_and, Bool.false_or]
              exact spanFree_no_startHit valsiz hpos rest (offset + 1) bit hrest hf
            · rw [if_neg hn] at hf
              rw [hspd] at hf
              simp only [Bool.and_eq_true, Bool.or_eq_true, decide_eq_true_eq] at hf
              obtain ⟨hdis, hrest2⟩ := hf
              have hclause :
                  (offset == bit || (decide (bit < offset) && decide (offset < bit + (valsiz : Int)))) = false := by
                rcases hdis with hle | hge
                · have hob : offset < bit := by omega
                  simp only [Bool.or_eq_false_iff, Bool.and_eq_false_iff]
                  constructor
                  · simp only [beq_eq_false_iff_ne]
                    omega
                  · left
                    simp only [decide_eq_false_iff_not]
                    omega
                · simp only [Bool.or_eq_false_iff, Bool.and_eq_false_iff]
                  constructor
                  · simp only [beq_eq_false_iff_ne]
                    omega
                  · right
                    simp only [decide_eq_false_iff_not]
                    omega
              rw [hclause]
              simp only [Bool.and_false, Bool.false_or]
              exact spanFree_no_startHit valsiz hpos rest (offset + s) bit hrest hrest2

/-- When no placed non-hole component intersects the inserted span, the
rebuild loop succeeds and the result carries the inserted component
starting exactly at the requested bit. -/
theorem bfSetAux_inserts (value : SHVType) (valsiz : Nat)
    (hv : typeSpan value = .ok (some valsiz)) (hnn : isNullT value = false)
    (hpos : 0 < valsiz) :
    ∀ (comps : List SHVType) (off bit : Nat),
      bfSpansPos comps = true →
      bfSpanFree comps (off : Int) (bit : Int) valsiz = true →
      off ≤ bit →
      ∃ l lst, bfSetAux (bit : Int) valsiz value comps (off : Int) = .ok l ∧
        bfTypesAux l off = .ok lst ∧ (value, bit, valsiz) ∈ lst
  | [], off, bit, _, _, hob => by
      rw [bfSetAux]
      rw [if_pos (by simpa using (by exact_mod_cast hob : (off : Int) ≤ (bit : Int)))]
      refine ⟨_, [(value, bit, valsiz)], rfl, ?_, by simp⟩
      have hk : ((bit : Int) - (off : Int)).toNat = bit - off := by omega
      rw [hk, bfTypesAux_replicate]
      rw [show off + (bit - off) = bit from by omega]
      rw [bfTypesAux, if_neg (by simp [hnn])]
      rw [show (do
          match ← typeSpan value with
          | none => .error .assertionError
          | some s => (bfTypesAux [] (bit + s)).map (fun l => (value, bit, s) :: l) :
            Except PyErr (List (SHVType × Nat × Nat))) =
        (bfTypesAux [] (bit + valsiz)).map (fun l => (value, bit, valsiz) :: l) from by
          rw [hv]; rfl]
      rfl
  | item :: rest, off, bit, hp, hf, hob => by
      rw [bfSpansPos] at hp
      rcases hsp : typeSpan item with e | o
      · rw [hsp] at hp; simp at hp
      · cases o with
        | none => rw [hsp] at hp; simp at hp
        | some s =>
            rw [hsp] at hp
            simp only [Bool.and_eq_true, decide_eq_true_eq] at hp
            obtain ⟨hspos, hrest⟩ := hp
            have hspd : typeSpanD item = s := by simp [typeSpanD, hsp]
            rw [bfSpanFree] at hf
            by_cases hn : isNullT item = true
            · -- a hole: spans one bit
              have hitem : item = SHVType.null := by
                cases item <;> simp [isNullT] at hn ⊢
              subst hitem
              have hs1 : s = 1 := by
                have : typeSpan SHVType.null = .ok (some 1) := rfl
                rw [this] at hsp
                cases hsp
                rfl
              subst hs1
              rw [if_pos hn] at hf
              by_cases hb : off = bit
              · -- insertion point reached on a hole
                subst hb
                rw [bfSetAux]
                rw [if_pos (by simp)]
                rw [if_pos (show isNullT SHVType.null = true from rfl)]
                have hrsd := bfSpansPos_spansDef rest hrest
                have hnhit := spanFree_no_startHit valsiz hpos rest ((off : Int) + 1)
                  (off : Int) hrest hf
                have hok := bfSetAux_isOk_iff value valsiz rest ((off : Int) + 1)
                  (off : Int) hrsd
                rw [hnhit] at hok
                rcases hrec : bfSetAux (off : Int) valsiz value rest ((off : Int) + 1)
                  with e | l0
                · rw [hrec] at hok; simp [Except.isOk, Except.toBool] at hok
                · have hl0 := bfSetAux_output_spansDef value valsiz hv rest _ _ l0
                    hrsd hrec
                  obtain ⟨lst0, hlst0⟩ := bfTypesAux_ok_of_spansDef l0 (off + valsiz) hl0
                  refine ⟨value :: l0, (value, off, valsiz) :: lst0, ?_, ?_, by simp⟩
                  · rw [show (do
                        let sp ← typeSpan SHVType.null
                        let l ← bfSetAux (off : Int) valsiz value rest
                          ((off : Int) + (sp.getD 0 : Nat))
                        Except.ok (value :: l) : Except PyErr (List SHVType)) =
                      (bfSetAux (off : Int) valsiz value rest ((off : Int) + (1 : Nat)) >>=
                        fun l => Except.ok (value :: l)) from rfl]
                    rw [show ((off : Int) + (1 : Nat)) = ((off : Int) + 1) from by push_cast; ring]
                    rw [hrec]
                    rfl
                  · rw [bfTypesAux, if_neg (by simp [hnn])]
                    rw [show (do
                        match ← typeSpan value with
                        | none => .error .assertionError
                        | some s => (bfTypesAux l0 (off + s)).map (fun l => (value, off, s) :: l) :
                          Except PyErr (List (SHVType × Nat × Nat))) =
                      (bfTypesAux l0 (off + valsiz)).map
                        (fun l => (value, off, valsiz) :: l) from by rw [hv]; rfl]
                    rw [hlst0]
                    rfl
              · -- a hole before the insertion point
                have hob2 : off + 1 ≤ bit := by omega
                have hfree2 : bfSpanFree rest ((off + 1 : Nat) : Int) (bit : Int) valsiz = true := by
                  push_cast
                  exact hf
                obtain ⟨l0, lst0, hrec, htypes, hmem⟩ :=
                  bfSetAux_inserts value valsiz hv hnn hpos rest (off + 1) bit hrest hfree2 hob2
                rw [bfSetAux]
                rw [if_neg (by simp; omega)]
                rw [if_neg (by simp; omega)]
                refine ⟨SHVType.null :: l0, lst0, ?_, ?_, hmem⟩
                · rw [show (do
                      let sp ← typeSpan SHVType.null
                      let l ← bfSetAux (bit : Int) valsiz value rest
                        ((off : Int) + (sp.getD 0 : Nat))
                      Except.ok (SHVType.null :: l) : Except PyErr (List SHVType)) =
                    (bfSetAux (bit : Int) valsiz value rest ((off : Int) + (1 : Nat)) >>=
                      fun l => Except.ok (SHVType.null :: l)) from rfl]
                  rw [show ((off : Int) + (1 : Nat)) = (((off + 1 : Nat)) : Int) from by push_cast; ring]
                  rw [hrec]
                  rfl
                · rw [bfTypesAux, if_pos hn]
                  exact htypes
            · -- a placed component: fully before the insertion span
              rw [if_neg hn, hspd] at hf
              simp only [Bool.and_eq_true, Bool.or_eq_true, decide_eq_true_eq] at hf
              obtain ⟨hdis, hfree2⟩ := hf
              have hbefore : off + s ≤ bit := by
                rcases hdis with hle | hge
                · omega
                · omega
              have hob2 : off + s ≤ bit := hbefore
              have hfree3 : bfSpanFree rest ((off + s : Nat) : Int) (bit : Int) valsiz = true := by
                push_cast
                exact hfree2
              obtain ⟨l0, lst0, hrec, htypes, hmem⟩ :=
                bfSetAux_inserts value valsiz hv hnn hpos rest (off + s) bit hrest hfree3 hob2
              rw [bfSetAux]
              rw [if_neg (by simp; omega)]
              rw [if_neg (by simp; omega)]
              refine ⟨item :: l0, (item, off, s) :: lst0, ?_, ?_, by simp [hmem]⟩
              · rw [show (do
                    let sp ← typeSpan item
                    let l ← bfSetAux (bit : Int) valsiz value rest
                      ((off : Int) + (sp.getD 0 : Nat))
                    Except.ok (item :: l) : Except PyErr (List SHVType)) =
                  (bfSetAux (bit : Int) valsiz value rest ((off : Int) + (s : Nat)) >>=
                    fun l => Except.ok (item :: l)) from by rw [hsp]; rfl]
                rw [show ((off : Int) + (s : Nat)) = (((off + s : Nat)) : Int) from by push_cast; ring]
                rw [hrec]
                rfl
              · rw [bfTypesAux, if_neg hn]
                rw [show (do
                    match ← typeSpan item with
                    | none => .error .assertionError
                    | some u => (bfTypesAux l0 (off + u)).map (fun l => (item, off, u) :: l) :
                      Except PyErr (List (SHVType × Nat × Nat))) =
                  (bfTypesAux l0 (off + s)).map (fun l => (item, off, s) :: l) from by
                    rw [hsp]; rfl]
                rw [htypes]
                rfl

/-- C4 (counterexample): inserting a Bool at bit 1, which falls strictly
inside the 3-bit span of an already placed integer component, neither fails
nor inserts — `set` silently returns with the bitfield unchanged, contrary
to the claim that any overlap with a placed component fails with an
error. -/
theorem bitfield_set_inside_span_no_error :
    bfSet [.int ⟨"u", some 0, some 7, none, true⟩] none (.inl 1) .bool =
      .ok [.int ⟨"u", some 0, some 7, none, true⟩] := rfl

/-- Resolution of `set` through its span check, for an integer bit key. -/
theorem bfSet_eq_setAux (items : List SHVType) (value : SHVType) (b : Int)
    (valsiz : Nat) (hval : typeSpan value = .ok (some valsiz)) :
    bfSet items none (.inl b) value = bfSetAux b valsiz value items 0 := by
  unfold bfSet
  rw [hval]
  rfl

/-- C4 (amended): `set(bit, tp)` fails with an error exactly when some
previously placed non-hole component starts at the requested bit or starts
strictly inside the inserted span; and whenever the spans of all placed
non-hole components are disjoint from the inserted span, the component is
inserted starting at the requested bit (with Null-hole padding as needed).
When the requested bit falls strictly inside a placed component's span
without another component starting inside the inserted span, `set` neither
fails nor inserts, as the counterexample shows. -/
theorem bitfield_set_overlap_behavior (items : List SHVType) (value : SHVType)
    (bit valsiz : Nat) (hval : typeSpan value = .ok (some valsiz))
    (hnn : isNullT value = false) (hpos : 0 < valsiz)
    (hsp : bfSpansPos items = true) :
    ((bfSet items none (.inl (bit : Int)) value).isOk =
        !bfStartHit items 0 (bit : Int) valsiz) ∧
    (bfSpanFree items 0 (bit : Int) valsiz = true →
      ∃ l lst, bfSet items none (.inl (bit : Int)) value = .ok l ∧
        bfTypesAux l 0 = .ok lst ∧ (value, bit, valsiz) ∈ lst) := by
  rw [bfSet_eq_setAux items value (bit : Int) valsiz hval]
  constructor
  · exact bfSetAux_isOk_iff value valsiz items 0 (bit : Int)
      (bfSpansPos_spansDef items hsp)
  · intro hfree
    have h0 : ((0 : Nat) : Int) = (0 : Int) := rfl
    obtain ⟨l, lst, hres, htypes, hmem⟩ :=
      bfSetAux_inserts value valsiz hval hnn hpos items 0 bit hsp
        (by rw [h0]; exact hfree) (Nat.zero_le bit)
    exact ⟨l, lst, by rw [← h0]; exact hres, htypes, hmem⟩

/-- C4 (witness): inserting a Bool at bit 1 after a Bool at bit 0. -/
theorem bitfield_set_overlap_behavior_witness :
    ((bfSet [SHVType.bool] none (.inl ((1 : Nat) : Int)) .bool).isOk =
        !bfStartHit [SHVType.bool] 0 ((1 : Nat) : Int) 1) ∧
    (bfSpanFree [SHVType.bool] 0 ((1 : Nat) : Int) 1 = true →
      ∃ l lst, bfSet [SHVType.bool] none (.inl ((1 : Nat) : Int)) .bool = .ok l ∧
        bfTypesAux l 0 = .ok lst ∧ (SHVType.bool, 1, 1) ∈ lst) :=
  bitfield_set_overlap_behavior [SHVType.bool] .bool 1 1 rfl rfl (by decide) (by decide)

theorem clearField_testBit (value i s j : Nat) :
    (value ^^^ (value &&& ((2 ^ s - 1) <<< i))).testBit j =
      (value.testBit j && !(decide (i ≤ j) && decide (j < i + s))) := by
  rw [Nat.testBit_xor, Nat.testBit_and, Nat.testBit_shiftLeft,
    Nat.testBit_two_pow_sub_one]
  rcases hv : value.testBit j <;>
    rcases hi : decide (i ≤ j) with _ | _ <;>
      rcases hw : decide (j - i < s) with _ | _ <;>
        simp_all <;> omega

theorem extract_congr {a b : Nat} (k : Nat)
    (h : ∀ j, k ≤ j → a.testBit j = b.testBit j) (p t : Nat) (hp : k ≤ p) :
    (a >>> p) &&& (2 ^ t - 1) = (b >>> p) &&& (2 ^ t - 1) := by
  apply Nat.eq_of_testBit_eq
  intro j
  rw [Nat.testBit_and, Nat.testBit_and, Nat.testBit_shiftRight, Nat.testBit_shiftRight]
  rw [h (p + j) (by omega)]

theorem wellFormed_congr :
    ∀ (comps : List SHVType) (i : Nat) {a b : Nat},
      (∀ j, i ≤ j → a.testBit j = b.testBit j) →
      bfWellFormed comps i a = bfWellFormed comps i b
  | [], _, _, _, _ => rfl
  | tp :: rest, i, a, b, h => by
      rw [bfWellFormed, bfWellFormed]
      by_cases hn : isNullT tp = true
      · rw [if_pos hn, if_pos hn]
        exact wellFormed_congr rest (i + 1) (fun j hj => h j (by omega))
      · rw [if_neg hn, if_neg hn]
        rcases hsp : typeSpan tp with e | o
        · rfl
        · cases o with
          | none => rfl
          | some s =>
              show (compOk tp ((a >>> i) &&& (2 ^ s - 1)) && bfWellFormed rest (i + s) a) =
                (compOk tp ((b >>> i) &&& (2 ^ s - 1)) && bfWellFormed rest (i + s) b)
              rw [extract_congr i h i s (le_refl i)]
              rw [wellFormed_congr rest (i + s) (fun j hj => h j (by omega))]

theorem bfInterpretAux_spec :
    ∀ (comps : List SHVType) (i value : Nat),
      bfWellFormed comps i value = true →
      ∃ res w, bfInterpretAux comps i value = .ok (res, w) ∧
        ∀ j, w.testBit j = (value.testBit j && !bfCovered comps i j)
  | [], i, value, _ => by
      refine ⟨[], value, rfl, fun j => ?_⟩
      rw [bfCovered]
      simp
  | tp :: rest, i, value, h => by
      rw [bfWellFormed] at h
      by_cases hn : isNullT tp = true
      · rw [if_pos hn] at h
        obtain ⟨res, w, hrec, hchar⟩ := bfInterpretAux_spec rest (i + 1) value h
        refine ⟨res, w, ?_, fun j => ?_⟩
        · rw [bfInterpretAux, if_pos hn]
          exact hrec
        · rw [bfCovered, if_pos hn]
          exact hchar j
      · rw [if_neg hn] at h
        rcases hsp : typeSpan tp with e | o
        · rw [hsp] at h; simp at h
        · cases o with
          | none => rw [hsp] at h; simp at h
          | some s =>
              rw [hsp] at h
              have h2 :
                  (compOk tp ((value >>> i) &&& (2 ^ s - 1)) &&
                    bfWellFormed rest (i + s) value) = true := h
              simp only [Bool.and_eq_true] at h2
              obtain ⟨hcomp, hwf⟩ := h2
              -- the cleared working value agrees with `value` above `i + s`
              have hagree : ∀ j, i + s ≤ j →
                  (value ^^^ (value &&& ((2 ^ s - 1) <<< i))).testBit j =
                    value.testBit j := by
                intro j hj
                rw [clearField_testBit]
                have : (decide (i ≤ j) && decide (j < i + s)) = false := by
                  simp only [Bool.and_eq_false_iff, decide_eq_false_iff_not]
                  right
                  omega
                rw [this]
                simp
              have hwf1 : bfWellFormed rest (i + s)
                  (value ^^^ (value &&& ((2 ^ s - 1) <<< i))) = true := by
                rw [wellFormed_congr rest (i + s) hagree]
                exact hwf
              obtain ⟨res, w, hrec, hchar⟩ :=
                bfInterpretAux_spec rest (i + s)
                  (value ^^^ (value &&& ((2 ^ s - 1) <<< i))) hwf1
              have hfinal : ∀ j, w.testBit j =
                  (value.testBit j && !bfCovered (tp :: rest) i j) := by
                intro j
                rw [hchar j, clearField_testBit]
                rw [bfCovered, if_neg hn, hsp]
                show _ = (value.testBit j &&
                  !((decide (i ≤ j) && decide (j < i + s)) || bfCovered rest (i + s) j))
                rcases value.testBit j <;>
                  rcases decide (i ≤ j) && decide (j < i + s) <;>
                    rcases bfCovered rest (i + s) j <;> rfl
              cases tp with
              | any => rw [show compOk SHVType.any _ = false from rfl] at hcomp; exact Bool.noConfusion hcomp
              | null => exact absurd rfl hn
              | dateTime => rw [show compOk SHVType.dateTime _ = false from rfl] at hcomp; exact Bool.noConfusion hcomp
              | double nm a b c d e => rw [show compOk (SHVType.double nm a b c d e) _ = false from rfl] at hcomp; exact Bool.noConfusion hcomp
              | decimal nm a b => rw [show compOk (SHVType.decimal nm a b) _ = false from rfl] at hcomp; exact Bool.noConfusion hcomp
              | string nm a b c => rw [show compOk (SHVType.string nm a b c) _ = false from rfl] at hcomp; exact Bool.noConfusion hcomp
              | blob nm a b => rw [show compOk (SHVType.blob nm a b) _ = false from rfl] at hcomp; exact Bool.noConfusion hcomp
              | bitfield nm a b c => rw [show compOk (SHVType.bitfield nm a b c) _ = false from rfl] at hcomp; exact Bool.noConfusion hcomp
              | listT nm a b c => rw [show compOk (SHVType.listT nm a b c) _ = false from rfl] at hcomp; exact Bool.noConfusion hcomp
              | tuple nm a b => rw [show compOk (SHVType.tuple nm a b) _ = false from rfl] at hcomp; exact Bool.noConfusion hcomp
              | mapT nm a => rw [show compOk (SHVType.mapT nm a) _ = false from rfl] at hcomp; exact Bool.noConfusion hcomp
              | imap nm a b => rw [show compOk (SHVType.imap nm a b) _ = false from rfl] at hcomp; exact Bool.noConfusion hcomp
              | «alias» nm a => rw [show compOk (SHVType.alias nm a) _ = false from rfl] at hcomp; exact Bool.noConfusion hcomp
              | oneOf nm a => rw [show compOk (SHVType.oneOf nm a) _ = false from rfl] at hcomp; exact Bool.noConfusion hcomp
              | constant nm a => rw [show compOk (SHVType.constant nm a) _ = false from rfl] at hcomp; exact Bool.noConfusion hcomp
              | anyMap => rw [show compOk SHVType.anyMap _ = false from rfl] at hcomp; exact Bool.noConfusion hcomp
              | anyIMap => rw [show compOk SHVType.anyIMap _ = false from rfl] at hcomp; exact Bool.noConfusion hcomp
              | bool =>
                  refine ⟨.bool (((value >>> i) &&& (2 ^ s - 1)) != 0) :: res, w, ?_, hfinal⟩
                  rw [bfInterpretAux, if_neg hn]
                  rw [show (do
                      match ← typeSpan SHVType.bool with
                      | none => .error .assertionError
                      | some siz =>
                        let v := (value >>> i) &&& (2 ^ siz - 1)
                        let value1 := value ^^^ (value &&& ((2 ^ siz - 1) <<< i))
                        (bfInterpretAux rest (i + siz) value1).map (fun r => (.bool (v != 0) :: r.1, r.2)) :
                          Except PyErr (List RawValue × Nat)) =
                    (bfInterpretAux rest (i + s)
                        (value ^^^ (value &&& ((2 ^ s - 1) <<< i)))).map
                      (fun r => (.bool ((((value >>> i) &&& (2 ^ s - 1))) != 0) :: r.1, r.2)) from by
                      rw [hsp]; rfl]
                  rw [hrec]
                  rfl
              | enum nm vals =>
                  refine ⟨.int ((((value >>> i) &&& (2 ^ s - 1)) : Nat) : Int) :: res, w,
                    ?_, hfinal⟩
                  rw [bfInterpretAux, if_neg hn]
                  rw [show (do
                      match ← typeSpan (SHVType.enum nm vals) with
                      | none => .error .assertionError
                      | some siz =>
                        let v := (value >>> i) &&& (2 ^ siz - 1)
                        let value1 := value ^^^ (value &&& ((2 ^ siz - 1) <<< i))
                        if enumValidateInt vals (v : Int) then
                          (bfInterpretAux rest (i + siz) value1).map (fun r => (.int (v : Int) :: r.1, r.2))
                        else
                          .error (.valueError "bits do not match enum values") :
                          Except PyErr (List RawValue × Nat)) =
                    (if enumValidateInt vals (((value >>> i) &&& (2 ^ s - 1) : Nat) : Int) then
                      (bfInterpretAux rest (i + s)
                          (value ^^^ (value &&& ((2 ^ s - 1) <<< i)))).map
                        (fun r => (.int ((((value >>> i) &&& (2 ^ s - 1)) : Nat) : Int) :: r.1, r.2))
                    else .error (.valueError "bits do not match enum values")) from by
                      rw [hsp]; rfl]
                  rw [if_pos (show enumValidateInt vals
                    (((value >>> i) &&& (2 ^ s - 1) : Nat) : Int) = true from hcomp)]
                  rw [hrec]
                  rfl
              | int t =>
                  have hval : t.validateInt (((value >>> i) &&& (2 ^ s - 1) : Nat) : Int) =
                      .ok true := by
                    have hc : (t.validateInt (((value >>> i) &&& (2 ^ s - 1) : Nat) : Int) ==
                        Except.ok true) = true := hcomp
                    exact eq_of_beq hc
                  refine ⟨.int ((((value >>> i) &&& (2 ^ s - 1)) : Nat) : Int) :: res, w,
                    ?_, hfinal⟩
                  rw [bfInterpretAux, if_neg hn]
                  rw [show (do
                      match ← typeSpan (SHVType.int t) with
                      | none => .error .assertionError
                      | some siz =>
                        let v := (value >>> i) &&& (2 ^ siz - 1)
                        let value1 := value ^^^ (value &&& ((2 ^ siz - 1) <<< i))
                        do
                          match ← t.validateInt (v : Int) with
                          | true => (bfInterpretAux rest (i + siz) value1).map (fun r => (.int (v : Int) :: r.1, r.2))
                          | false => .error (.valueError "bits do not match integer limits") :
                          Except PyErr (List RawValue × Nat)) =
                    (bfInterpretAux rest (i + s)
                        (value ^^^ (value &&& ((2 ^ s - 1) <<< i)))).map
                      (fun r => (.int ((((value >>> i) &&& (2 ^ s - 1)) : Nat) : Int) :: r.1, r.2)) from by
                      rw [hsp]
                      show (do
                        match ← t.validateInt (((value >>> i) &&& (2 ^ s - 1) : Nat) : Int) with
                        | true => (bfInterpretAux rest (i + s) (value ^^^ (value &&& ((2 ^ s - 1) <<< i)))).map (fun r => (.int ((((value >>> i) &&& (2 ^ s - 1)) : Nat) : Int) :: r.1, r.2))
                        | false => .error (.valueError "bits do not match integer limits") :
                          Except PyErr (List RawValue × Nat)) = _
                      rw [hval]
                      rfl]
                  rw [hrec]
                  rfl

/-- Claim C2: for a bitfield whose non-hole components each individually accept
the bits `value` assigns to them, `validate(value)` returns `True` exactly when
`interpret(value)` raises no error; and whenever some set bit of `value` lies
outside every component span, `validate` returns `False` when `strict` is true
and `True` when `strict` is false. -/
theorem bitfield_validate_strict (items : List SHVType) (strict : Bool) (value : Nat)
    (h : bfWellFormed items 0 value = true) :
    ((bfValidateNat items strict value = Except.ok true) ↔
      (bfInterpret items strict value).isOk = true) ∧
    ((∃ j, value.testBit j = true ∧ bfCovered items 0 j = false) →
      bfValidateNat items strict value = Except.ok (!strict)) := by
  obtain ⟨res, w, haux, hchar⟩ := bfInterpretAux_spec items 0 value h
  have hint : bfInterpret items strict value =
      (if strict && w != 0 then Except.error (PyErr.valueError "These unsued bits were set")
       else Except.ok res) := by
    unfold bfInterpret
    rw [haux]
    rfl
  have hval : bfValidateNat items strict value =
      (if strict && w != 0 then Except.ok false else Except.ok true) := by
    unfold bfValidateNat
    rw [hint]
    by_cases hc : (strict && w != 0) = true
    · rw [if_pos hc, if_pos hc]
    · rw [if_neg hc, if_neg hc]
  constructor
  · rw [hval, hint]
    by_cases hc : (strict && w != 0) = true
    · rw [if_pos hc, if_pos hc]
      simp [Except.isOk, Except.toBool]
    · rw [if_neg hc, if_neg hc]
      simp [Except.isOk, Except.toBool]
  · rintro ⟨j, hbit, hcov⟩
    have hw : w ≠ 0 := by
      intro h0
      have hcj := hchar j
      rw [h0, Nat.zero_testBit, hbit, hcov] at hcj
      exact Bool.noConfusion hcj
    rw [hval]
    cases strict with
    | false => rfl
    | true =>
        rw [if_pos (show (true && (w != 0)) = true by simp [hw])]
        rfl

/-- Witness for `bitfield_validate_strict`: the single-component bitfield
`[Bool]` with value `2` (bit 1 set, beyond the one-bit span) is well formed,
and strict validation returns `False`. -/
theorem bitfield_validate_strict_witness :
    bfWellFormed [SHVType.bool] 0 2 = true ∧
    bfValidateNat [SHVType.bool] true 2 = Except.ok false := by
  refine ⟨by decide, ?_⟩
  have h := bitfield_validate_strict [SHVType.bool] true 2 (by decide)
  exact h.2 ⟨1, by decide, by decide⟩

theorem decValEq_refl (d : Dec) (h : (d == Dec.nan) = false) : decValEq d d = true := by
  cases d with
  | num m e => show (decScaled m e (min e e) == decScaled m e (min e e)) = true; simp
  | inf s => show (s == s) = true; simp
  | nan => exact absurd h (by decide)

mutual

theorem rawEq_refl : ∀ v : RawValue, rawClean v = true → rawEq v v = true
  | .null, _ => rfl
  | .bool b, _ => by show (b == b) = true; simp
  | .int i, _ => by show (i == i) = true; simp
  | .float q, _ => by show (q == q) = true; simp
  | .str s, _ => by show (s == s) = true; simp
  | .bytes b, _ => by show (b == b) = true; simp
  | .dateTime t, _ => by show (t == t) = true; simp
  | .dec d, h => decValEq_refl d (by
      have h2 : (!(d == Dec.nan)) = true := h
      simpa using h2)
  | .seq l, h => rawEqList_refl l h
  | .map e, h => rawEqSMap_refl e h
  | .imapv e, h => rawEqIMap_refl e h
termination_by structural v => v

theorem rawEqList_refl : ∀ l : List RawValue, rawCleanList l = true → rawEqList l l = true
  | [], _ => rfl
  | v :: rest, h => by
      have hp : rawClean v = true ∧ rawCleanList rest = true := by
        have h2 : (rawClean v && rawCleanList rest) = true := h
        exact Bool.and_eq_true_iff.mp h2
      show (rawEq v v && rawEqList rest rest) = true
      rw [rawEq_refl v hp.1, rawEqList_refl rest hp.2]
      rfl
termination_by structural l => l

theorem rawEqSMap_refl : ∀ l : List (String × RawValue),
    rawCleanSList l = true → rawEqSMap l l = true
  | [], _ => rfl
  | (k, v) :: rest, h => by
      have hp : rawClean v = true ∧ rawCleanSList rest = true := by
        have h2 : (rawClean v && rawCleanSList rest) = true := h
        exact Bool.and_eq_true_iff.mp h2
      show (k == k && rawEq v v && rawEqSMap rest rest) = true
      rw [rawEq_refl v hp.1, rawEqSMap_refl rest hp.2]
      simp
termination_by structural l => l

theorem rawEqIMap_refl : ∀ l : List (Int × RawValue),
    rawCleanIList l = true → rawEqIMap l l = true
  | [], _ => rfl
  | (k, v) :: rest, h => by
      have hp : rawClean v = true ∧ rawCleanIList rest = true := by
        have h2 : (rawClean v && rawCleanIList rest) = true := h
        exact Bool.and_eq_true_iff.mp h2
      show (k == k && rawEq v v && rawEqIMap rest rest) = true
      rw [rawEq_refl v hp.1, rawEqIMap_refl rest hp.2]
      simp
termination_by structural l => l

end

theorem optDecEq_refl (o : Option Dec) (h : optDecNan o = false) : optDecEq o o = true := by
  cases o with
  | none => rfl
  | some d =>
      show decValEq d d = true
      apply decValEq_refl
      cases d with
      | num m e => rfl
      | inf s => rfl
      | nan => exact absurd h (by decide)

theorem optEnumEq_refl (o : Option SHVType) (h : optEnumClean o = true) :
    optEnumEq o o = true := by
  cases o with
  | none => rfl
  | some t =>
      cases t with
      | enum nm vals => show (vals == vals) = true; simp
      | any => exact Bool.noConfusion h
      | null => exact Bool.noConfusion h
      | bool => exact Bool.noConfusion h
      | dateTime => exact Bool.noConfusion h
      | int a => exact Bool.noConfusion h
      | double nm a b c d e => exact Bool.noConfusion h
      | decimal nm a b => exact Bool.noConfusion h
      | string nm a b c => exact Bool.noConfusion h
      | blob nm a b => exact Bool.noConfusion h
      | bitfield nm a b c => exact Bool.noConfusion h
      | listT nm a b c => exact Bool.noConfusion h
      | tuple nm a b => exact Bool.noConfusion h
      | mapT nm a => exact Bool.noConfusion h
      | imap nm a b => exact Bool.noConfusion h
      | «alias» nm a => exact Bool.noConfusion h
      | oneOf nm a => exact Bool.noConfusion h
      | constant nm a => exact Bool.noConfusion h
      | anyMap => exact Bool.noConfusion h
      | anyIMap => exact Bool.noConfusion h

mutual

theorem typeEq_refl : ∀ t : SHVType, typeClean t = true → typeEq t t = true
  | .any, _ => rfl
  | .null, _ => rfl
  | .bool, _ => rfl
  | .dateTime, _ => rfl
  | .int t, _ => by
      show (t.minimum == t.minimum && t.maximum == t.maximum &&
        t.multipleOf == t.multipleOf) = true
      simp
  | .double nm mn mx emn emx mo, _ => by
      show (mn == mn && mx == mx && emn == emn && emx == emx && mo == mo) = true
      simp
  | .decimal nm mn mx, h => by
      have h2 : (!optDecNan mn && !optDecNan mx) = true := h
      obtain ⟨h3, h4⟩ := Bool.and_eq_true_iff.mp h2
      show (optDecEq mn mn && optDecEq mx mx) = true
      rw [optDecEq_refl mn (by simpa using h3), optDecEq_refl mx (by simpa using h4)]
      rfl
  | .string nm mn mx p, _ => by
      show (mn == mn && mx == mx && p == p) = true
      simp
  | .blob nm mn mx, h => Bool.noConfusion h
  | .enum nm vals, _ => by
      show (vals == vals) = true
      simp
  | .bitfield nm items en st, h => by
      have h2 : (typeCleanList items && optEnumClean en) = true := h
      obtain ⟨h3, h4⟩ := Bool.and_eq_true_iff.mp h2
      show (optEnumEq en en && typeEqList items items) = true
      rw [optEnumEq_refl en h4, typeEqList_refl items h3]
      rfl
  | .tuple nm items en, h => by
      have h2 : (typeCleanList items && optEnumClean en) = true := h
      obtain ⟨h3, h4⟩ := Bool.and_eq_true_iff.mp h2
      show (optEnumEq en en && typeEqList items items) = true
      rw [optEnumEq_refl en h4, typeEqList_refl items h3]
      rfl
  | .listT nm al mn mx, h => by
      show (typeEq al al && mn == mn && mx == mx) = true
      rw [typeEq_refl al h]
      simp
  | .mapT nm fs, h => typeEqSList_refl fs h
  | .imap nm en fs, h => typeEqIList_refl fs h
  | .alias nm tp, h => by
      show (typeEq tp (.alias nm tp) || typeEq tp tp) = true
      rw [typeEq_refl tp h]
      simp
  | .oneOf nm ts, h => typeEqList_refl ts h
  | .constant nm v, h => rawEq_refl v h
  | .anyMap, _ => rfl
  | .anyIMap, _ => rfl
termination_by structural t => t

theorem typeEqList_refl : ∀ l : List SHVType, typeCleanList l = true → typeEqList l l = true
  | [], _ => rfl
  | t :: rest, h => by
      have h2 : (typeClean t && typeCleanList rest) = true := h
      obtain ⟨h3, h4⟩ := Bool.and_eq_true_iff.mp h2
      show ((typeEq t t || (isShvBlobSingleton t && isShvBlobSingleton t)) &&
        typeEqList rest rest) = true
      rw [typeEq_refl t h3, typeEqList_refl rest h4]
      rfl
termination_by structural l => l

theorem typeEqSList_refl : ∀ l : List (String × SHVType),
    typeCleanSList l = true → typeEqSList l l = true
  | [], _ => rfl
  | (k, t) :: rest, h => by
      have h2 : (typeClean t && typeCleanSList rest) = true := h
      obtain ⟨h3, h4⟩ := Bool.and_eq_true_iff.mp h2
      show (k == k && (typeEq t t || (isShvBlobSingleton t && isShvBlobSingleton t)) &&
        typeEqSList rest rest) = true
      rw [typeEq_refl t h3, typeEqSList_refl rest h4]
      simp
termination_by structural l => l

theorem typeEqIList_refl : ∀ l : List (Int × SHVType),
    typeCleanIList l = true → typeEqIList l l = true
  | [], _ => rfl
  | (k, t) :: rest, h => by
      have h2 : (typeClean t && typeCleanIList rest) = true := h
      obtain ⟨h3, h4⟩ := Bool.and_eq_true_iff.mp h2
      show (k == k && (typeEq t t || (isShvBlobSingleton t && isShvBlobSingleton t)) &&
        typeEqIList rest rest) = true
      rw [typeEq_refl t h3, typeEqIList_refl rest h4]
      simp
termination_by structural l => l

end

theorem methodEq_refl (m : SHVMethod) (h : methodClean m = true) : methodEq m m = true := by
  have h2 : (typeClean m.param && typeClean m.result && rawClean m.description) = true := h
  obtain ⟨h3, h4⟩ := Bool.and_eq_true_iff.mp h2
  obtain ⟨h5, h6⟩ := Bool.and_eq_true_iff.mp h3
  show (m.name == m.name && typeEq m.param m.param && typeEq m.result m.result &&
    m.flags == m.flags && rawEq m.description m.description) = true
  rw [typeEq_refl _ h5, typeEq_refl _ h6, rawEq_refl _ h4]
  simp

theorem methodListEq_refl : ∀ l : List SHVMethod,
    methodListClean l = true → methodListEq l l = true
  | [], _ => rfl
  | m :: rest, h => by
      have h2 : (methodClean m && methodListClean rest) = true := h
      obtain ⟨h3, h4⟩ := Bool.and_eq_true_iff.mp h2
      show (methodEq m m && methodListEq rest rest) = true
      rw [methodEq_refl m h3, methodListEq_refl rest h4]
      rfl

mutual

theorem nodeEq_refl : ∀ n : SHVNode, nodeClean n = true → nodeEq n n = true
  | .mk nm ns ms d, h => by
      have h2 : (nodeListClean ns && methodListClean ms && rawClean d) = true := h
      obtain ⟨h3, h4⟩ := Bool.and_eq_true_iff.mp h2
      obtain ⟨h5, h6⟩ := Bool.and_eq_true_iff.mp h3
      show (nm == nm && nodeListEq ns ns && methodListEq ms ms && rawEq d d) = true
      rw [nodeListEq_refl ns h5, methodListEq_refl ms h6, rawEq_refl d h4]
      simp
termination_by structural n => n

theorem nodeListEq_refl : ∀ l : List SHVNode, nodeListClean l = true → nodeListEq l l = true
  | [], _ => rfl
  | n :: rest, h => by
      have h2 : (nodeClean n && nodeListClean rest) = true := h
      obtain ⟨h3, h4⟩ := Bool.and_eq_true_iff.mp h2
      show (nodeEq n n && nodeListEq rest rest) = true
      rw [nodeEq_refl n h3, nodeListEq_refl rest h4]
      rfl
termination_by structural l => l

end

theorem typeSetEq_refl : ∀ l : List SHVType, l.all typeClean = true → typeSetEq l l = true
  | [], _ => rfl
  | t :: rest, h => by
      have h2 : (typeClean t && rest.all typeClean) = true := by
        simpa [List.all_cons] using h
      obtain ⟨h3, h4⟩ := Bool.and_eq_true_iff.mp h2
      show (typeName t == typeName t &&
        (typeEq t t || (isShvBlobSingleton t && isShvBlobSingleton t)) &&
        typeSetEq rest rest) = true
      rw [typeEq_refl t h3, typeSetEq_refl rest h4]
      simp

theorem treeEq_refl (t : SHVTree) (h : treeClean t = true) : treeEq t t = true := by
  have h2 : (nodeListClean t.nodes && t.types.all typeClean) = true := h
  obtain ⟨h3, h4⟩ := Bool.and_eq_true_iff.mp h2
  show (nodeListEq t.nodes t.nodes && typeSetEq t.types t.types) = true
  rw [nodeListEq_refl _ h3, typeSetEq_refl _ h4]
  rfl

/-- Claim C5 (counterexample): loader idempotence fails on a document that
declares a constrained Blob type — the loaded tree does not even compare
equal to a second identical load, because `SHVTypeBlob.__eq__` requires the
other side to be an `SHVTypeString` instance and so never accepts another
Blob. -/
theorem load_raw_blob_not_self_equal :
    (loadRaw (.map [("types", .map [("b", .map [("type", .str "Blob"),
        ("length", .int 4)])])])).map (fun t => treeEq t t) = .ok false := by
  rfl

/-- Claim C5 (amended): loading the same document twice yields structurally
equal trees, provided the loaded tree is free of Blob types and NaN decimal
bounds — the two shapes on which the source's `__eq__` chain is not
reflexive. -/
theorem load_raw_idempotent (data : RawValue) (t1 t2 : SHVTree)
    (h1 : loadRaw data = Except.ok t1) (h2 : loadRaw data = Except.ok t2)
    (hc : treeClean t1 = true) :
    treeEq t1 t2 = true := by
  rw [h1] at h2
  cases Except.ok.inj h2
  exact treeEq_refl t1 hc

/-- Witness for `load_raw_idempotent`: the empty document loads to the empty
tree, which is clean and equal to itself. -/
theorem load_raw_idempotent_witness :
    loadRaw (.map []) = Except.ok ⟨[], []⟩ ∧ treeClean ⟨[], []⟩ = true ∧
      treeEq (⟨[], []⟩ : SHVTree) ⟨[], []⟩ = true := by
  refine ⟨rfl, rfl, ?_⟩
  exact load_raw_idempotent (.map []) ⟨[], []⟩ ⟨[], []⟩ rfl rfl rfl
